import Mathlib

/-!
Verification of the rice-quality analysis pipeline (quality classification,
output denormalization, CSV serialization, persistence row mapping, retention
store) against its natural-language specification.

The embedding models JavaScript numbers as `JNum`: either NaN, +Infinity,
-Infinity, or a finite value represented exactly as a rational.  (IEEE doubles
are rationals; the embedding uses exact arithmetic, which is the standard
idealization for the threshold comparisons and serializations verified here.)
All JS operations used by the source are given their JS semantics on the
special values: division by zero produces NaN or ±Infinity, comparisons with
NaN are false, `Math.max(0, NaN)` is NaN, and so on.
-/

/-- A JavaScript number: NaN, +Infinity, -Infinity or a finite (rational)
value. -/
inductive JNum where
  | nan : JNum
  | inf : JNum
  | ninf : JNum
  | fin : ℚ → JNum
deriving DecidableEq

namespace JNum

/-- JS strict less-than `<`.  Any comparison involving NaN is false. -/
def jlt : JNum → JNum → Bool
  | nan, _ => false
  | _, nan => false
  | ninf, ninf => false
  | ninf, _ => true
  | _, ninf => false
  | inf, _ => false
  | fin _, inf => true
  | fin a, fin b => decide (a < b)

/-- JS less-or-equal `<=`.  Any comparison involving NaN is false. -/
def jle : JNum → JNum → Bool
  | nan, _ => false
  | _, nan => false
  | ninf, _ => true
  | _, ninf => false
  | _, inf => true
  | inf, _ => false
  | fin a, fin b => decide (a ≤ b)

/-- JS `=== 0` test on a number. -/
def jeq0 : JNum → Bool
  | fin q => decide (q = 0)
  | _ => false

/-- JS addition. -/
def jadd : JNum → JNum → JNum
  | nan, _ => nan
  | _, nan => nan
  | inf, ninf => nan
  | ninf, inf => nan
  | inf, _ => inf
  | _, inf => inf
  | ninf, _ => ninf
  | _, ninf => ninf
  | fin a, fin b => fin (a + b)

/-- JS subtraction. -/
def jsub : JNum → JNum → JNum
  | nan, _ => nan
  | _, nan => nan
  | inf, inf => nan
  | inf, ninf => inf
  | ninf, inf => ninf
  | ninf, ninf => nan
  | inf, fin _ => inf
  | ninf, fin _ => ninf
  | fin _, inf => ninf
  | fin _, ninf => inf
  | fin a, fin b => fin (a - b)

/-- JS multiplication.  `Infinity * 0` is NaN. -/
def jmul : JNum → JNum → JNum
  | nan, _ => nan
  | _, nan => nan
  | inf, inf => inf
  | inf, ninf => ninf
  | ninf, inf => ninf
  | ninf, ninf => inf
  | inf, fin q => if q = 0 then nan else if 0 < q then inf else ninf
  | fin q, inf => if q = 0 then nan else if 0 < q then inf else ninf
  | ninf, fin q => if q = 0 then nan else if 0 < q then ninf else inf
  | fin q, ninf => if q = 0 then nan else if 0 < q then ninf else inf
  | fin a, fin b => fin (a * b)

/-- JS division.  `0/0` is NaN, `q/0` is ±Infinity for finite nonzero `q`
(the model has only positive zero), and a finite value over ±Infinity is 0. -/
def jdiv : JNum → JNum → JNum
  | nan, _ => nan
  | _, nan => nan
  | inf, inf => nan
  | inf, ninf => nan
  | ninf, inf => nan
  | ninf, ninf => nan
  | inf, fin q => if 0 ≤ q then inf else ninf
  | ninf, fin q => if 0 ≤ q then ninf else inf
  | fin _, inf => fin 0
  | fin _, ninf => fin 0
  | fin a, fin b =>
      if b = 0 then (if a = 0 then nan else if 0 < a then inf else ninf)
      else fin (a / b)

/-- JS `Math.max(0, x)`; NaN-propagating. -/
def jmax0 : JNum → JNum
  | nan => nan
  | inf => inf
  | ninf => fin 0
  | fin q => fin (max 0 q)

/-- JS `Math.round`: round half toward +Infinity on finite values. -/
def jround : JNum → JNum
  | nan => nan
  | inf => inf
  | ninf => ninf
  | fin q => fin ((⌊q + 1/2⌋ : ℤ) : ℚ)

end JNum

/-! ## Constants from src/constants/app.ts and the design system -/

/-- `SCAN_HISTORY_LIMIT` from src/constants/app.ts. -/
def SCAN_HISTORY_LIMIT : ℕ := 100

structure MillingThresholds where
  premium : ℚ
  grade1 : ℚ
  grade2 : ℚ
  grade3 : ℚ

structure ShapeThresholds where
  bold : ℚ
  medium : ℚ

structure ChalkinessThresholds where
  notChalky : ℚ

structure DefectThresholds where
  warning : ℚ
  caution : ℚ
  critical : ℚ

structure QualityThresholds where
  milling : MillingThresholds
  shape : ShapeThresholds
  chalkiness : ChalkinessThresholds
  defects : DefectThresholds

/-- `QUALITY_THRESHOLDS` from src/constants/app.ts. -/
def QUALITY_THRESHOLDS : QualityThresholds :=
  { milling := { premium := 5, grade1 := 10, grade2 := 15, grade3 := 20 }
  , shape := { bold := 2.1, medium := 2.9 }
  , chalkiness := { notChalky := 20 }
  , defects := { warning := 5, caution := 10, critical := 20 } }

/-- `GradeColors` from the design system. -/
def GradeColors.premium : String := "#1B5E20"

def GradeColors.grade1 : String := "#2E7D32"

def GradeColors.grade2 : String := "#388E3C"

def GradeColors.grade3 : String := "#689F38"

def GradeColors.belowGrade : String := "#FFA000"

/-- `SemanticColors` from the design system. -/
def SemanticColors.success : String := "#2E7D32"

def SemanticColors.warning : String := "#F57C00"

/-! ## Data model from src/types (scan types)

The TS string-literal union types (`MillingGradeCode`, `GrainShape`,
`LengthClass`, `ChalkinessStatus`, `WarningSeverity`, defect type) are plain
strings at runtime and are modelled as `String`. -/

structure RawModelOutput where
  count : JNum
  broken_count : JNum
  long_count : JNum
  medium_count : JNum
  black_count : JNum
  chalky_count : JNum
  red_count : JNum
  yellow_count : JNum
  green_count : JNum
  wk_length_avg : JNum
  wk_width_avg : JNum
  wk_lw_ratio_avg : JNum
  average_l : JNum
  average_a : JNum
  average_b : JNum
deriving DecidableEq

structure MillingGrade where
  grade : String
  code : String
  color : String
deriving DecidableEq

structure GrainShapeInfo where
  shape : String
  description : String
deriving DecidableEq

structure ChalkinessInfo where
  status : String
  color : String
deriving DecidableEq

structure DefectWarning where
  type : String
  message : String
  severity : String
  percentage : JNum
deriving DecidableEq

structure QualityClassifications where
  millingGrade : MillingGrade
  grainShape : GrainShapeInfo
  lengthClass : String
  chalkinessStatus : ChalkinessInfo
  warnings : List DefectWarning
deriving DecidableEq

/-! ## Quality classifier from src/utils/quality-rules.ts -/

/-- `getMillingGrade` from quality-rules.ts: strict `<` against the milling
thresholds in ascending order. -/
def getMillingGrade (brokenPercent : JNum) : MillingGrade :=
  if brokenPercent.jlt (JNum.fin QUALITY_THRESHOLDS.milling.premium) then
    { grade := "Premium", code := "P", color := GradeColors.premium }
  else if brokenPercent.jlt (JNum.fin QUALITY_THRESHOLDS.milling.grade1) then
    { grade := "Grade 1", code := "1", color := GradeColors.grade1 }
  else if brokenPercent.jlt (JNum.fin QUALITY_THRESHOLDS.milling.grade2) then
    { grade := "Grade 2", code := "2", color := GradeColors.grade2 }
  else if brokenPercent.jlt (JNum.fin QUALITY_THRESHOLDS.milling.grade3) then
    { grade := "Grade 3", code := "3", color := GradeColors.grade3 }
  else
    { grade := "Below Grade", code := "BG", color := GradeColors.belowGrade }

/-- `getGrainShape` from quality-rules.ts: `<` bold cutoff, then `<=` medium
cutoff (inclusive), else Slender. -/
def getGrainShape (lwRatioAvg : JNum) : GrainShapeInfo :=
  if lwRatioAvg.jlt (JNum.fin QUALITY_THRESHOLDS.shape.bold) then
    { shape := "Bold", description := "Short, round grains" }
  else if lwRatioAvg.jle (JNum.fin QUALITY_THRESHOLDS.shape.medium) then
    { shape := "Medium", description := "Standard shape" }
  else
    { shape := "Slender", description := "Long, thin grains" }

/-- `getLengthClass` from quality-rules.ts: `totalCount === 0` gives Mixed,
otherwise strict `> 90` dominance checks in the order long, medium, short,
with `shortPercent = 100 - longPercent - mediumPercent`. -/
def getLengthClass (totalCount longCount mediumCount : JNum) : String :=
  if totalCount.jeq0 then "Mixed"
  else
    let longPercent := (longCount.jdiv totalCount).jmul (JNum.fin 100)
    let mediumPercent := (mediumCount.jdiv totalCount).jmul (JNum.fin 100)
    let shortPercent := ((JNum.fin 100).jsub longPercent).jsub mediumPercent
    if (JNum.fin 90).jlt longPercent then "Long Grain"
    else if (JNum.fin 90).jlt mediumPercent then "Medium Grain"
    else if (JNum.fin 90).jlt shortPercent then "Short Grain"
    else "Mixed"

/-- `getChalkinessStatus` from quality-rules.ts. -/
def getChalkinessStatus (chalkyPercent : JNum) : ChalkinessInfo :=
  if chalkyPercent.jlt (JNum.fin QUALITY_THRESHOLDS.chalkiness.notChalky) then
    { status := "Not Chalky", color := SemanticColors.success }
  else
    { status := "Chalky", color := SemanticColors.warning }

/-- One entry of the `defects` array built inside `getDefectWarnings`. -/
structure DefectEntry where
  type : String
  count : JNum
  message : String

/-- The `defects` array from `getDefectWarnings`, in source order:
black, green, red, yellow, chalky. -/
def defectEntries (results : RawModelOutput) : List DefectEntry :=
  [ { type := "black", count := results.black_count
    , message := "High black/damaged grain content detected" }
  , { type := "green", count := results.green_count
    , message := "Immature (green) grains detected" }
  , { type := "red", count := results.red_count
    , message := "Red-striped grains present" }
  , { type := "yellow", count := results.yellow_count
    , message := "Yellow/fermented grains detected" }
  , { type := "chalky", count := results.chalky_count
    , message := "High chalky grain content" } ]

/-- The per-defect branch body of the loop in `getDefectWarnings`: push a
warning at the highest matching band, or nothing below the warning cutoff. -/
def defectWarningFor (total : JNum) (d : DefectEntry) : List DefectWarning :=
  let percentage := (d.count.jdiv total).jmul (JNum.fin 100)
  if (JNum.fin QUALITY_THRESHOLDS.defects.critical).jle percentage then
    [{ type := d.type, message := d.message, severity := "high", percentage := percentage }]
  else if (JNum.fin QUALITY_THRESHOLDS.defects.caution).jle percentage then
    [{ type := d.type, message := d.message, severity := "medium", percentage := percentage }]
  else if (JNum.fin QUALITY_THRESHOLDS.defects.warning).jle percentage then
    [{ type := d.type, message := d.message, severity := "low", percentage := percentage }]
  else []

/-- `getDefectWarnings` from quality-rules.ts: empty when `total === 0`,
otherwise the loop over the five defects in order appending at most one
warning each. -/
def getDefectWarnings (results : RawModelOutput) : List DefectWarning :=
  let total := results.count
  if total.jeq0 then []
  else (defectEntries results).flatMap (defectWarningFor total)

/-- `applyClassifications` from quality-rules.ts.  Note that `brokenPercent`
and the chalky percentage are computed by plain division with no
`count === 0` guard. -/
def applyClassifications (results : RawModelOutput) : QualityClassifications :=
  let brokenPercent := (results.broken_count.jdiv results.count).jmul (JNum.fin 100)
  { millingGrade := getMillingGrade brokenPercent
  , grainShape := getGrainShape results.wk_lw_ratio_avg
  , lengthClass := getLengthClass results.count results.long_count results.medium_count
  , chalkinessStatus :=
      getChalkinessStatus ((results.chalky_count.jdiv results.count).jmul (JNum.fin 100))
  , warnings := getDefectWarnings results }

/-! ## Spec-side classifier definitions (from the specification text) -/

/-- Modelled from the spec: milling grade by strict less-than against the
default cutoffs 5, 10, 15, 20 in ascending order, with codes P, 1, 2, 3, BG. -/
def millingGradeSpec (brokenPercent : ℚ) : MillingGrade :=
  if brokenPercent < 5 then
    { grade := "Premium", code := "P", color := GradeColors.premium }
  else if brokenPercent < 10 then
    { grade := "Grade 1", code := "1", color := GradeColors.grade1 }
  else if brokenPercent < 15 then
    { grade := "Grade 2", code := "2", color := GradeColors.grade2 }
  else if brokenPercent < 20 then
    { grade := "Grade 3", code := "3", color := GradeColors.grade3 }
  else
    { grade := "Below Grade", code := "BG", color := GradeColors.belowGrade }

/-- Modelled from the spec: Bold strictly below 2.1, Medium at or below 2.9
(inclusive), Slender strictly above 2.9. -/
def grainShapeSpec (lwRatioAvg : ℚ) : GrainShapeInfo :=
  if lwRatioAvg < 2.1 then
    { shape := "Bold", description := "Short, round grains" }
  else if lwRatioAvg ≤ 2.9 then
    { shape := "Medium", description := "Standard shape" }
  else
    { shape := "Slender", description := "Long, thin grains" }

/-- Modelled from the spec: length class by strict 90% dominance in priority
order long, medium, short, with the short proportion implied. -/
def lengthClassSpec (totalCount longCount mediumCount : ℚ) : String :=
  let longPercent := longCount / totalCount * 100
  let mediumPercent := mediumCount / totalCount * 100
  let shortPercent := 100 - longPercent - mediumPercent
  if longPercent > 90 then "Long Grain"
  else if mediumPercent > 90 then "Medium Grain"
  else if shortPercent > 90 then "Short Grain"
  else "Mixed"

/-- Modelled from the spec: severity bands evaluated from highest to lowest,
defaults 20 / 10 / 5. -/
def severityBandSpec (percentage : ℚ) : String :=
  if percentage ≥ 20 then "high"
  else if percentage ≥ 10 then "medium"
  else "low"

/-- Modelled from the spec: one warning for a defect exactly when its
percentage is at or above the warning cutoff (5), carrying the single highest
matching band and the triggering percentage. -/
def defectWarningSpecFor (total defectCount : ℚ) (ty msg : String) : List DefectWarning :=
  let percentage := defectCount / total * 100
  if percentage ≥ 5 then
    [{ type := ty, message := msg, severity := severityBandSpec percentage
     , percentage := JNum.fin percentage }]
  else []

/-- Modelled from the spec: warnings in the fixed defect order black, green,
red, yellow, chalky; empty when the total count is 0. -/
def defectWarningsSpec (total blackC greenC redC yellowC chalkyC : ℚ) : List DefectWarning :=
  if total = 0 then []
  else
    defectWarningSpecFor total blackC "black" "High black/damaged grain content detected"
    ++ defectWarningSpecFor total greenC "green" "Immature (green) grains detected"
    ++ defectWarningSpecFor total redC "red" "Red-striped grains present"
    ++ defectWarningSpecFor total yellowC "yellow" "Yellow/fermented grains detected"
    ++ defectWarningSpecFor total chalkyC "chalky" "High chalky grain content"

/-- A `RawModelOutput` whose 15 fields are all finite, from rationals. -/
def mkRawQ (c bc lc mc blc chc rdc yc gc wl ww wr al aa ab : ℚ) : RawModelOutput :=
  { count := JNum.fin c, broken_count := JNum.fin bc, long_count := JNum.fin lc
  , medium_count := JNum.fin mc, black_count := JNum.fin blc
  , chalky_count := JNum.fin chc, red_count := JNum.fin rdc
  , yellow_count := JNum.fin yc, green_count := JNum.fin gc
  , wk_length_avg := JNum.fin wl, wk_width_avg := JNum.fin ww
  , wk_lw_ratio_avg := JNum.fin wr, average_l := JNum.fin al
  , average_a := JNum.fin aa, average_b := JNum.fin ab }

/-- The all-zero raw output: `count = 0`. -/
def rawZero : RawModelOutput := mkRawQ 0 0 0 0 0 0 0 0 0 0 0 0 0 0 0

/-- Helper: on finite inputs with a positive total, the source's per-defect
branch agrees with the spec's band selection. -/
theorem defectWarningFor_eq_spec (ty msg : String) (x c : ℚ) (hc : 0 < c) :
    defectWarningFor (JNum.fin c) { type := ty, count := JNum.fin x, message := msg }
      = defectWarningSpecFor c x ty msg := by
  have hc0 : c ≠ 0 := ne_of_gt hc
  simp only [defectWarningFor, defectWarningSpecFor, JNum.jdiv, JNum.jmul, JNum.jle,
    QUALITY_THRESHOLDS, severityBandSpec, if_neg hc0]
  split_ifs with h1 h2 h3 h4 h5 h6 h7 <;> first
    | rfl
    | (exfalso; simp_all <;> linarith)

/-- C5: the milling grade is determined by strict less-than comparisons
against the cutoffs 5, 10, 15, 20 in ascending order with codes P, 1, 2, 3,
BG; exactly 5.0 yields Grade 1, 4.999 yields Premium, and anything at or
above 20 yields Below Grade. -/
theorem C5_milling_grade_strict_thresholds :
    (∀ q : ℚ, getMillingGrade (JNum.fin q) = millingGradeSpec q)
    ∧ (getMillingGrade (JNum.fin 5)).code = "1"
    ∧ (getMillingGrade (JNum.fin 4.999)).code = "P"
    ∧ (∀ q : ℚ, 20 ≤ q → (getMillingGrade (JNum.fin q)).code = "BG") := by
  have main : ∀ q : ℚ, getMillingGrade (JNum.fin q) = millingGradeSpec q := by
    intro q
    simp only [getMillingGrade, millingGradeSpec, JNum.jlt, QUALITY_THRESHOLDS,
      decide_eq_true_eq]
  refine ⟨main, ?_, ?_, ?_⟩
  · rw [main 5]; norm_num [millingGradeSpec]
  · rw [main 4.999]; norm_num [millingGradeSpec]
  · intro q hq
    have h5 : ¬ q < 5 := by linarith
    have h10 : ¬ q < 10 := by linarith
    have h15 : ¬ q < 15 := by linarith
    have h20 : ¬ q < 20 := by linarith
    simp [getMillingGrade, JNum.jlt, QUALITY_THRESHOLDS, h5, h10, h15, h20]

/-- Witness for C5 at the concrete input 25 (at or above 20 gives BG). -/
theorem C5_milling_grade_strict_thresholds_witness :
    (20 : ℚ) ≤ 25 ∧ (getMillingGrade (JNum.fin 25)).code = "BG" :=
  ⟨by norm_num, C5_milling_grade_strict_thresholds.2.2.2 25 (by norm_num)⟩

/-- C8: grain shape is Bold strictly below 2.1, Medium at or below 2.9
(inclusive upper bound), Slender strictly above 2.9; exactly 2.9 yields
Medium and 2.90001 yields Slender. -/
theorem C8_grain_shape_inclusive_medium :
    (∀ q : ℚ, getGrainShape (JNum.fin q) = grainShapeSpec q)
    ∧ (getGrainShape (JNum.fin 2.9)).shape = "Medium"
    ∧ (getGrainShape (JNum.fin 2.90001)).shape = "Slender" := by
  have main : ∀ q : ℚ, getGrainShape (JNum.fin q) = grainShapeSpec q := by
    intro q
    simp only [getGrainShape, grainShapeSpec, JNum.jlt, JNum.jle, QUALITY_THRESHOLDS,
      decide_eq_true_eq]
  refine ⟨main, ?_, ?_⟩
  · rw [main 2.9]; norm_num [grainShapeSpec]
  · rw [main 2.90001]; norm_num [grainShapeSpec]

/-- C6: with count > 0, the length class is a dominant class only when the
corresponding proportion strictly exceeds 90% (priority long, medium, short,
with the short percent implied), Mixed otherwise; 300/210/90 gives Mixed. -/
theorem C6_length_class_dominance :
    (∀ t l m : ℚ, 0 < t →
        getLengthClass (JNum.fin t) (JNum.fin l) (JNum.fin m) = lengthClassSpec t l m)
    ∧ getLengthClass (JNum.fin 300) (JNum.fin 210) (JNum.fin 90) = "Mixed" := by
  have main : ∀ t l m : ℚ, 0 < t →
      getLengthClass (JNum.fin t) (JNum.fin l) (JNum.fin m) = lengthClassSpec t l m := by
    intro t l m ht
    have ht0 : t ≠ 0 := ne_of_gt ht
    simp only [getLengthClass, lengthClassSpec, JNum.jeq0, JNum.jdiv, JNum.jmul, JNum.jsub,
      JNum.jlt, decide_eq_true_eq, ht0, if_false, gt_iff_lt]
  refine ⟨main, ?_⟩
  rw [main 300 210 90 (by norm_num)]
  norm_num [lengthClassSpec]

/-- Witness for C6 at the concrete input 300/210/90. -/
theorem C6_length_class_dominance_witness :
    (0 : ℚ) < 300
    ∧ getLengthClass (JNum.fin 300) (JNum.fin 210) (JNum.fin 90) = lengthClassSpec 300 210 90 :=
  ⟨by norm_num, C6_length_class_dominance.1 300 210 90 (by norm_num)⟩

/-- C7: with count > 0, each defect gets exactly one warning when its
percentage is at least 5, at the single highest matching band (>= 20 high,
else >= 10 medium, else >= 5 low), carrying the triggering percentage, in the
fixed order black, green, red, yellow, chalky; with count = 0 the warnings
list is empty. -/
theorem C7_defect_warnings :
    (∀ c bc lc mc blc chc rdc yc gc wl ww wr al aa ab : ℚ, 0 < c →
        getDefectWarnings (mkRawQ c bc lc mc blc chc rdc yc gc wl ww wr al aa ab)
          = defectWarningsSpec c blc gc rdc yc chc)
    ∧ (∀ raw : RawModelOutput, raw.count = JNum.fin 0 → getDefectWarnings raw = []) := by
  constructor
  · intro c bc lc mc blc chc rdc yc gc wl ww wr al aa ab hc
    have hc0 : c ≠ 0 := ne_of_gt hc
    simp only [getDefectWarnings, mkRawQ, defectEntries, defectWarningsSpec, JNum.jeq0,
      decide_eq_true_eq, hc0, if_false]
    simp only [List.flatMap_cons, List.flatMap_nil, List.append_nil]
    rw [defectWarningFor_eq_spec _ _ _ _ hc, defectWarningFor_eq_spec _ _ _ _ hc,
      defectWarningFor_eq_spec _ _ _ _ hc, defectWarningFor_eq_spec _ _ _ _ hc,
      defectWarningFor_eq_spec _ _ _ _ hc]
    simp only [List.append_assoc]
  · intro raw h
    simp [getDefectWarnings, h, JNum.jeq0]

/-- Witness for C7: the spec's worked scenario, count 250 with 75 black
grains (30%, a single high-severity black warning). -/
theorem C7_defect_warnings_witness :
    (0 : ℚ) < 250
    ∧ getDefectWarnings (mkRawQ 250 0 0 0 75 0 0 0 0 0 0 0 0 0 0)
        = defectWarningsSpec 250 75 0 0 0 0 :=
  ⟨by norm_num, C7_defect_warnings.1 250 0 0 0 75 0 0 0 0 0 0 0 0 0 0 (by norm_num)⟩

/-- Counterexample for C1: on the all-zero output (count = 0) the classifier
divides anyway; the NaN broken and chalky percentages fall through every
strict comparison, so the milling grade is Below Grade (not the 0%-rate
Premium) and the chalkiness status is Chalky (not the 0%-rate Not Chalky). -/
theorem C1_zero_count_counterexample :
    (applyClassifications rawZero).millingGrade.code = "BG"
    ∧ (applyClassifications rawZero).millingGrade.code ≠ "P"
    ∧ (applyClassifications rawZero).chalkinessStatus.status = "Chalky"
    ∧ (applyClassifications rawZero).chalkinessStatus.status ≠ "Not Chalky"
    ∧ (millingGradeSpec 0).code = "P"
    ∧ (getChalkinessStatus (JNum.fin 0)).status = "Not Chalky" := by
  have happ : applyClassifications rawZero =
      { millingGrade := { grade := "Below Grade", code := "BG", color := GradeColors.belowGrade }
      , grainShape := { shape := "Bold", description := "Short, round grains" }
      , lengthClass := "Mixed"
      , chalkinessStatus := { status := "Chalky", color := SemanticColors.warning }
      , warnings := [] } := by
    norm_num [applyClassifications, rawZero, mkRawQ, JNum.jdiv, JNum.jmul, getMillingGrade,
      getChalkinessStatus, getLengthClass, getDefectWarnings, getGrainShape,
      JNum.jlt, JNum.jle, JNum.jeq0, QUALITY_THRESHOLDS]
  rw [happ]
  refine ⟨rfl, by decide, rfl, by decide, ?_, ?_⟩
  · norm_num [millingGradeSpec]
  · norm_num [getChalkinessStatus, JNum.jlt, QUALITY_THRESHOLDS]

/-- C1 (amended): with count = 0 and non-negative broken/chalky counts,
`getLengthClass` and `getDefectWarnings` do special-case the zero count
(Mixed, empty warnings) and `applyClassifications` never raises, but the
broken and chalky percentages are divided without a guard, so the milling
grade is always Below Grade and the status always Chalky — not the
classifications corresponding to 0% rates. -/
theorem C1_zero_count_amended :
    ∀ (raw : RawModelOutput) (bq cq : ℚ),
      raw.count = JNum.fin 0 → raw.broken_count = JNum.fin bq → 0 ≤ bq →
      raw.chalky_count = JNum.fin cq → 0 ≤ cq →
      (applyClassifications raw).millingGrade.code = "BG"
      ∧ (applyClassifications raw).chalkinessStatus.status = "Chalky"
      ∧ (applyClassifications raw).lengthClass = "Mixed"
      ∧ (applyClassifications raw).warnings = [] := by
  intro raw bq cq hc hb hbq hch hcq
  have key : ∀ q : ℚ, 0 ≤ q →
      ((JNum.fin q).jdiv (JNum.fin 0)).jmul (JNum.fin 100) = JNum.nan
      ∨ ((JNum.fin q).jdiv (JNum.fin 0)).jmul (JNum.fin 100) = JNum.inf := by
    intro q hq
    rcases eq_or_lt_of_le hq with h | h
    · left; simp [JNum.jdiv, JNum.jmul, ← h]
    · right
      have h0 : q ≠ 0 := ne_of_gt h
      norm_num [JNum.jdiv, JNum.jmul, h0, h]
  have h1 := key bq hbq
  have h2 := key cq hcq
  simp only [applyClassifications, hb, hc, hch]
  refine ⟨?_, ?_, ?_, ?_⟩
  · rcases h1 with h | h <;> rw [h] <;> simp [getMillingGrade, JNum.jlt]
  · rcases h2 with h | h <;> rw [h] <;> simp [getChalkinessStatus, JNum.jlt]
  · simp [getLengthClass, JNum.jeq0]
  · simp [getDefectWarnings, JNum.jeq0, hc]

/-- Witness for C1 (amended) at the all-zero raw output. -/
theorem C1_zero_count_amended_witness :
    rawZero.count = JNum.fin 0
    ∧ ((applyClassifications rawZero).millingGrade.code = "BG"
      ∧ (applyClassifications rawZero).chalkinessStatus.status = "Chalky"
      ∧ (applyClassifications rawZero).lengthClass = "Mixed"
      ∧ (applyClassifications rawZero).warnings = []) :=
  ⟨rfl, C1_zero_count_amended rawZero 0 0 rfl rfl (le_refl 0) rfl (le_refl 0)⟩

/-! ## Output denormalizer from src/services/inference/model-inference.ts

The host's `Math.exp` restricted to finite arguments is an unknown finite
function; the development is parameterized over it (`jsExp : ℚ → ℚ`), with
`Math.expm1 x = jsExp x - 1` in the exact-arithmetic idealization.  Every
theorem below holds for all `jsExp`, in particular for the actual host
exponential. -/

structure TransformStat where
  mean : ℚ
  std : ℚ

structure CountStats where
  count : TransformStat
  broken_count : TransformStat
  long_count : TransformStat
  medium_count : TransformStat
  black_count : TransformStat
  chalky_count : TransformStat
  red_count : TransformStat
  yellow_count : TransformStat
  green_count : TransformStat

structure ContinuousStats where
  wk_length_avg : TransformStat
  wk_width_avg : TransformStat
  wk_lw_ratio_avg : TransformStat
  average_l : TransformStat
  average_a : TransformStat
  average_b : TransformStat

structure TransformStats where
  count : CountStats
  continuous : ContinuousStats

/-- `TRANSFORM_STATS` from model-inference.ts. -/
def TRANSFORM_STATS : TransformStats :=
  { count :=
      { count := { mean := 5.94, std := 0.39 }
      , broken_count := { mean := 3.08, std := 0.87 }
      , long_count := { mean := 4.92, std := 0.62 }
      , medium_count := { mean := 3.72, std := 0.95 }
      , black_count := { mean := 0.89, std := 1.29 }
      , chalky_count := { mean := 2.91, std := 1.32 }
      , red_count := { mean := 0.98, std := 1.35 }
      , yellow_count := { mean := 0.72, std := 1.14 }
      , green_count := { mean := 0.94, std := 1.28 } }
  , continuous :=
      { wk_length_avg := { mean := 6.62, std := 0.81 }
      , wk_width_avg := { mean := 2.24, std := 0.32 }
      , wk_lw_ratio_avg := { mean := 3.01, std := 0.44 }
      , average_l := { mean := 76.8, std := 6.2 }
      , average_a := { mean := 0.82, std := 1.15 }
      , average_b := { mean := 17.4, std := 4.1 } } }

structure OutputIndices where
  count : ℕ
  broken_count : ℕ
  long_count : ℕ
  medium_count : ℕ
  black_count : ℕ
  chalky_count : ℕ
  red_count : ℕ
  yellow_count : ℕ
  green_count : ℕ
  wk_length_avg : ℕ
  wk_width_avg : ℕ
  wk_lw_ratio_avg : ℕ
  average_l : ℕ
  average_a : ℕ
  average_b : ℕ

/-- `OUTPUT_INDICES` from model-inference.ts. -/
def OUTPUT_INDICES : OutputIndices :=
  { count := 0, broken_count := 1, long_count := 2, medium_count := 3
  , black_count := 4, chalky_count := 5, red_count := 6, yellow_count := 7
  , green_count := 8, wk_length_avg := 9, wk_width_avg := 10
  , wk_lw_ratio_avg := 11, average_l := 12, average_a := 13, average_b := 14 }

/-- JS `Math.expm1` lifted to JNum, with `jsExp` the finite exponential. -/
def jexpm1 (jsExp : ℚ → ℚ) : JNum → JNum
  | JNum.nan => JNum.nan
  | JNum.inf => JNum.inf
  | JNum.ninf => JNum.fin (-1)
  | JNum.fin q => JNum.fin (jsExp q - 1)

/-- JS `Math.exp` lifted to JNum (used by the spec-side `exp(x) - 1`). -/
def jexp (jsExp : ℚ → ℚ) : JNum → JNum
  | JNum.nan => JNum.nan
  | JNum.inf => JNum.inf
  | JNum.ninf => JNum.fin 0
  | JNum.fin q => JNum.fin (jsExp q)

/-- JS array read `predictions[idx]`: an out-of-range index reads
`undefined`, which behaves as NaN in all subsequent arithmetic. -/
def getPred (predictions : List JNum) (idx : ℕ) : JNum :=
  predictions.getD idx JNum.nan

/-- The `invCount` helper of `denormalizeOutputs`:
`Math.max(0, Math.round(Math.expm1(normalized * std + mean)))`. -/
def invCount (jsExp : ℚ → ℚ) (predictions : List JNum) (idx : ℕ) (stat : TransformStat) : JNum :=
  let normalized := getPred predictions idx
  let log1pVal := (normalized.jmul (JNum.fin stat.std)).jadd (JNum.fin stat.mean)
  (jexpm1 jsExp log1pVal).jround.jmax0

/-- The `invCont` helper of `denormalizeOutputs`: `normalized * std + mean`. -/
def invCont (predictions : List JNum) (idx : ℕ) (stat : TransformStat) : JNum :=
  ((getPred predictions idx).jmul (JNum.fin stat.std)).jadd (JNum.fin stat.mean)

/-- `denormalizeOutputs` from model-inference.ts.  Note: it performs no
length check on its input. -/
def denormalizeOutputs (jsExp : ℚ → ℚ) (predictions : List JNum) : RawModelOutput :=
  { count := invCount jsExp predictions OUTPUT_INDICES.count TRANSFORM_STATS.count.count
  , broken_count :=
      invCount jsExp predictions OUTPUT_INDICES.broken_count TRANSFORM_STATS.count.broken_count
  , long_count :=
      invCount jsExp predictions OUTPUT_INDICES.long_count TRANSFORM_STATS.count.long_count
  , medium_count :=
      invCount jsExp predictions OUTPUT_INDICES.medium_count TRANSFORM_STATS.count.medium_count
  , black_count :=
      invCount jsExp predictions OUTPUT_INDICES.black_count TRANSFORM_STATS.count.black_count
  , chalky_count :=
      invCount jsExp predictions OUTPUT_INDICES.chalky_count TRANSFORM_STATS.count.chalky_count
  , red_count :=
      invCount jsExp predictions OUTPUT_INDICES.red_count TRANSFORM_STATS.count.red_count
  , yellow_count :=
      invCount jsExp predictions OUTPUT_INDICES.yellow_count TRANSFORM_STATS.count.yellow_count
  , green_count :=
      invCount jsExp predictions OUTPUT_INDICES.green_count TRANSFORM_STATS.count.green_count
  , wk_length_avg :=
      invCont predictions OUTPUT_INDICES.wk_length_avg TRANSFORM_STATS.continuous.wk_length_avg
  , wk_width_avg :=
      invCont predictions OUTPUT_INDICES.wk_width_avg TRANSFORM_STATS.continuous.wk_width_avg
  , wk_lw_ratio_avg :=
      invCont predictions OUTPUT_INDICES.wk_lw_ratio_avg TRANSFORM_STATS.continuous.wk_lw_ratio_avg
  , average_l := invCont predictions OUTPUT_INDICES.average_l TRANSFORM_STATS.continuous.average_l
  , average_a := invCont predictions OUTPUT_INDICES.average_a TRANSFORM_STATS.continuous.average_a
  , average_b := invCont predictions OUTPUT_INDICES.average_b TRANSFORM_STATS.continuous.average_b }

/-- Modelled from the spec: for a count-family metric, inverse z-score using
that metric's (mean, std), then the inverse of log1p, i.e. `exp(x) - 1`, then
clamp to ≥ 0, then round to the nearest integer. -/
def invCountSpec (jsExp : ℚ → ℚ) (predictions : List JNum) (idx : ℕ) (stat : TransformStat) : JNum :=
  let z := ((getPred predictions idx).jmul (JNum.fin stat.std)).jadd (JNum.fin stat.mean)
  (((jexp jsExp z).jsub (JNum.fin 1)).jmax0).jround

/-- Modelled from the spec: for a continuous-family metric, the inverse
z-score only (`value * std + mean`), with no rounding and no clamping. -/
def invContSpec (predictions : List JNum) (idx : ℕ) (stat : TransformStat) : JNum :=
  ((getPred predictions idx).jmul (JNum.fin stat.std)).jadd (JNum.fin stat.mean)

/-- Modelled from the spec: the denormalized record, count metrics at indices
0–8 in the fixed order, continuous metrics at indices 9–14. -/
def denormalizeOutputsSpec (jsExp : ℚ → ℚ) (predictions : List JNum) : RawModelOutput :=
  { count := invCountSpec jsExp predictions 0 TRANSFORM_STATS.count.count
  , broken_count := invCountSpec jsExp predictions 1 TRANSFORM_STATS.count.broken_count
  , long_count := invCountSpec jsExp predictions 2 TRANSFORM_STATS.count.long_count
  , medium_count := invCountSpec jsExp predictions 3 TRANSFORM_STATS.count.medium_count
  , black_count := invCountSpec jsExp predictions 4 TRANSFORM_STATS.count.black_count
  , chalky_count := invCountSpec jsExp predictions 5 TRANSFORM_STATS.count.chalky_count
  , red_count := invCountSpec jsExp predictions 6 TRANSFORM_STATS.count.red_count
  , yellow_count := invCountSpec jsExp predictions 7 TRANSFORM_STATS.count.yellow_count
  , green_count := invCountSpec jsExp predictions 8 TRANSFORM_STATS.count.green_count
  , wk_length_avg := invContSpec predictions 9 TRANSFORM_STATS.continuous.wk_length_avg
  , wk_width_avg := invContSpec predictions 10 TRANSFORM_STATS.continuous.wk_width_avg
  , wk_lw_ratio_avg := invContSpec predictions 11 TRANSFORM_STATS.continuous.wk_lw_ratio_avg
  , average_l := invContSpec predictions 12 TRANSFORM_STATS.continuous.average_l
  , average_a := invContSpec predictions 13 TRANSFORM_STATS.continuous.average_a
  , average_b := invContSpec predictions 14 TRANSFORM_STATS.continuous.average_b }

/-- `Math.expm1` agrees with `exp(x) - 1` on every JNum. -/
theorem jexpm1_eq_jexp_sub_one (jsExp : ℚ → ℚ) (x : JNum) :
    jexpm1 jsExp x = (jexp jsExp x).jsub (JNum.fin 1) := by
  cases x <;> simp [jexpm1, jexp, JNum.jsub]

/-- Clamping to ≥ 0 commutes with JS rounding. -/
theorem jmax0_jround (x : JNum) : x.jround.jmax0 = x.jmax0.jround := by
  cases x with
  | nan => rfl
  | inf => rfl
  | ninf =>
      simp [JNum.jround, JNum.jmax0]
      norm_num
  | fin q =>
      simp only [JNum.jround, JNum.jmax0, JNum.fin.injEq]
      rcases le_or_lt q 0 with h | h
      · have h1 : (⌊q + 1/2⌋ : ℤ) ≤ 0 := by
          have h0 : ⌊q + 1/2⌋ ≤ ⌊(0 : ℚ) + 1/2⌋ := Int.floor_le_floor (by linarith)
          have h00 : ⌊(0 : ℚ) + 1/2⌋ = 0 := by norm_num
          omega
        have h2 : max 0 q = 0 := max_eq_left h
        rw [h2]
        have : max (0 : ℚ) ((⌊q + 1/2⌋ : ℤ) : ℚ) = 0 := by
          apply max_eq_left
          exact_mod_cast h1
        rw [this]
        norm_num
      · have h1 : (0 : ℤ) ≤ ⌊q + 1/2⌋ := by
          apply Int.le_floor.mpr
          push_cast
          linarith
        have h2 : max 0 q = q := max_eq_right (le_of_lt h)
        rw [h2]
        apply max_eq_right
        exact_mod_cast h1

/-- C4: the denormalizer computes every count-family field as the inverse
z-score followed by the inverse of log1p (`exp(x) - 1`), clamped to ≥ 0 and
rounded, and every continuous-family field as the inverse z-score only, at
the fixed indices 0–14. -/
theorem C4_denormalizer_transforms :
    ∀ (jsExp : ℚ → ℚ) (predictions : List JNum),
      denormalizeOutputs jsExp predictions = denormalizeOutputsSpec jsExp predictions := by
  intro jsExp predictions
  have hcount : ∀ idx stat, invCount jsExp predictions idx stat
      = invCountSpec jsExp predictions idx stat := by
    intro idx stat
    simp only [invCount, invCountSpec, jexpm1_eq_jexp_sub_one, jmax0_jround]
  simp only [denormalizeOutputs, denormalizeOutputsSpec, OUTPUT_INDICES, hcount]
  rfl

/-- Counterexample for C2: a 14-float input produces no error at all — the
denormalizer returns a complete `RawModelOutput` whose `average_b` field read
the missing index 14 and is NaN.  (`jsExp` instantiated with the identity;
the NaN outcome does not depend on it.) -/
theorem C2_no_shape_error_counterexample :
    (List.replicate 14 (JNum.fin 0)).length ≠ 15
    ∧ (denormalizeOutputs (fun q => q) (List.replicate 14 (JNum.fin 0))).average_b
        = JNum.nan := by
  constructor
  · decide
  · simp [denormalizeOutputs, invCont, getPred, OUTPUT_INDICES, JNum.jmul, JNum.jadd,
      List.getD]

/-- C2 (amended): the denormalizer performs no shape check and cannot fail;
on any input shorter than 15 it still returns a full `RawModelOutput`, whose
`average_b` field (index 14) is NaN from the out-of-range read.  The only
length-15 check in the repository lives in the TFLite runner, which throws a
generic `Error` that its caller catches, substituting mock predictions
instead of surfacing the failure. -/
theorem C2_no_shape_error_amended :
    ∀ (jsExp : ℚ → ℚ) (predictions : List JNum),
      predictions.length ≤ 14 →
      (denormalizeOutputs jsExp predictions).average_b = JNum.nan := by
  intro jsExp predictions h
  have hd : getPred predictions 14 = JNum.nan := by
    unfold getPred
    exact List.getD_eq_default _ _ h
  simp [denormalizeOutputs, invCont, OUTPUT_INDICES, hd, JNum.jmul, JNum.jadd]

/-- Witness for C2 (amended) at the concrete 14-element input. -/
theorem C2_no_shape_error_amended_witness :
    (List.replicate 14 (JNum.fin 0)).length ≤ 14
    ∧ (denormalizeOutputs (fun q => q + 1) (List.replicate 14 (JNum.fin 0))).average_b
        = JNum.nan :=
  ⟨by decide, C2_no_shape_error_amended (fun q => q + 1) (List.replicate 14 (JNum.fin 0))
    (by decide)⟩

/-! ## Decimal digit rendering and parsing

Shared machinery for the serializers: JS `Number.prototype.toString` on
integers, `toFixed(2)`, `date-fns` formatting, ISO timestamps and the JSON
column round trips.  All recursions are structural (fuel-indexed where
needed) so that closed instances evaluate by `decide`/`rfl`. -/

def digitChar (d : ℕ) : Char := Char.ofNat (48 + d)

def isDigitChar (c : Char) : Bool := decide (48 ≤ c.toNat) && decide (c.toNat ≤ 57)

def digitVal (c : Char) : ℕ := c.toNat - 48

def accDigit (a d : ℕ) : ℕ := 10 * a + d

/-- Least-significant-first decimal digits of `n`; fuel-indexed so the
recursion is structural (`n` itself is always enough fuel). -/
def natDigitsRevAux : ℕ → ℕ → List ℕ
  | 0, _ => []
  | _, 0 => []
  | fuel + 1, n + 1 => ((n + 1) % 10) :: natDigitsRevAux fuel ((n + 1) / 10)

def natDigitsRev (n : ℕ) : List ℕ := natDigitsRevAux n n

def ofDigitsRev : List ℕ → ℕ
  | [] => 0
  | d :: ds => d + 10 * ofDigitsRev ds

theorem natDigitsRevAux_val : ∀ fuel n, n ≤ fuel → ofDigitsRev (natDigitsRevAux fuel n) = n := by
  intro fuel
  induction fuel with
  | zero =>
      intro n hn
      have h : n = 0 := by omega
      subst h; rfl
  | succ f ih =>
      intro n hn
      match n with
      | 0 => rfl
      | m + 1 =>
          have hd : (m + 1) / 10 ≤ f := by
            have := Nat.div_lt_self (Nat.succ_pos m) (by norm_num : 1 < 10)
            omega
          show ofDigitsRev (((m + 1) % 10) :: natDigitsRevAux f ((m + 1) / 10)) = m + 1
          simp only [ofDigitsRev]
          rw [ih _ hd]
          exact Nat.mod_add_div (m + 1) 10

theorem natDigitsRevAux_lt10 : ∀ fuel n d, d ∈ natDigitsRevAux fuel n → d < 10 := by
  intro fuel
  induction fuel with
  | zero => intro n d h; simp [natDigitsRevAux] at h
  | succ f ih =>
      intro n d h
      match n with
      | 0 => simp [natDigitsRevAux] at h
      | m + 1 =>
          simp only [natDigitsRevAux, List.mem_cons] at h
          rcases h with h | h
          · subst h; exact Nat.mod_lt _ (by norm_num)
          · exact ih _ _ h

/-- JS decimal rendering of a natural number (`(0).toString()` is "0"). -/
def natChars (n : ℕ) : List Char :=
  if n = 0 then [digitChar 0] else (natDigitsRev n).reverse.map digitChar

/-- JS decimal rendering of an integer-valued number. -/
def intChars (i : ℤ) : List Char :=
  if i < 0 then Char.ofNat 45 :: natChars i.natAbs else natChars i.natAbs

theorem digitChar_toNat (d : ℕ) (h : d < 10) : (digitChar d).toNat = 48 + d := by
  interval_cases d <;> decide

theorem isDigitChar_digitChar (d : ℕ) (h : d < 10) : isDigitChar (digitChar d) = true := by
  interval_cases d <;> decide

theorem digitVal_digitChar (d : ℕ) (h : d < 10) : digitVal (digitChar d) = d := by
  interval_cases d <;> decide

theorem foldl_accDigit (ds : List ℕ) :
    ∀ acc, ds.foldl accDigit acc = acc * 10 ^ ds.length + ds.foldl accDigit 0 := by
  induction ds with
  | nil => intro acc; simp
  | cons d tl ih =>
      intro acc
      simp only [List.foldl_cons]
      rw [ih (accDigit acc d), ih (accDigit 0 d)]
      simp only [accDigit, List.length_cons]
      ring

theorem foldl_accDigit_reverse (ds : List ℕ) :
    (ds.reverse).foldl accDigit 0 = ofDigitsRev ds := by
  induction ds with
  | nil => rfl
  | cons d tl ih =>
      simp only [List.reverse_cons, List.foldl_append, List.foldl_cons, List.foldl_nil,
        ofDigitsRev]
      rw [ih]
      simp only [accDigit]
      omega

/-- Greedy digit scanner used by the numeric parsers. -/
def parseDigitsAux : ℕ → List Char → ℕ × List Char
  | acc, [] => (acc, [])
  | acc, c :: cs =>
      if isDigitChar c then parseDigitsAux (accDigit acc (digitVal c)) cs else (acc, c :: cs)

/-- Parse one or more decimal digits. -/
def parseNatChars : List Char → Option (ℕ × List Char)
  | [] => none
  | c :: cs => if isDigitChar c then some (parseDigitsAux (digitVal c) cs) else none

def headNonDigit : List Char → Bool
  | [] => true
  | c :: _ => !(isDigitChar c)

theorem parseDigitsAux_append (ds : List ℕ) (h10 : ∀ d ∈ ds, d < 10) :
    ∀ (acc : ℕ) (rest : List Char), headNonDigit rest = true →
      parseDigitsAux acc (ds.map digitChar ++ rest) = (ds.foldl accDigit acc, rest) := by
  induction ds with
  | nil =>
      intro acc rest hrest
      cases rest with
      | nil => rfl
      | cons c cs =>
          have hc : isDigitChar c = false := by simpa [headNonDigit] using hrest
          simp [parseDigitsAux, hc]
  | cons d tl ih =>
      intro acc rest hrest
      have hd : d < 10 := h10 d (by simp)
      simp only [List.map_cons, List.cons_append, parseDigitsAux,
        isDigitChar_digitChar d hd, if_true, List.foldl_cons]
      rw [digitVal_digitChar d hd]
      exact ih (fun x hx => h10 x (by simp [hx])) _ _ hrest

theorem parseNatChars_natChars (n : ℕ) (rest : List Char) (hrest : headNonDigit rest = true) :
    parseNatChars (natChars n ++ rest) = some (n, rest) := by
  by_cases h0 : n = 0
  · subst h0
    simp only [natChars, if_pos rfl, List.cons_append, List.nil_append, parseNatChars,
      isDigitChar_digitChar 0 (by norm_num), if_true]
    rw [digitVal_digitChar 0 (by norm_num)]
    have h := parseDigitsAux_append [] (by simp) 0 rest hrest
    simpa using h
  · simp only [natChars, if_neg h0]
    have hmem : ∀ d ∈ (natDigitsRev n).reverse, d < 10 := by
      intro d hd
      exact natDigitsRevAux_lt10 n n d (List.mem_reverse.mp hd)
    have hval : ((natDigitsRev n).reverse).foldl accDigit 0 = n := by
      rw [foldl_accDigit_reverse]
      exact natDigitsRevAux_val n n le_rfl
    cases hcase : (natDigitsRev n).reverse with
    | nil =>
        exfalso
        rw [hcase] at hval
        simp at hval
        exact h0 hval.symm
    | cons d tl =>
        have hd10 : d < 10 := hmem d (by rw [hcase]; simp)
        simp only [hcase, List.map_cons, List.cons_append, parseNatChars,
          isDigitChar_digitChar d hd10, if_true]
        rw [digitVal_digitChar d hd10]
        have happ := parseDigitsAux_append tl
          (fun x hx => hmem x (by rw [hcase]; simp [hx])) d rest hrest
        rw [happ]
        rw [hcase] at hval
        simp only [List.foldl_cons] at hval
        have hacc : accDigit 0 d = d := by simp [accDigit]
        rw [hacc] at hval
        rw [hval]

/-- Exactly `k` least-significant-first decimal digits of `n`. -/
def lsfDigits : ℕ → ℕ → List ℕ
  | 0, _ => []
  | k + 1, n => (n % 10) :: lsfDigits k (n / 10)

/-- Fixed-width (`k` digits, zero-padded) decimal rendering. -/
def padChars (k n : ℕ) : List Char := ((lsfDigits k n).reverse).map digitChar

theorem lsfDigits_length (k : ℕ) : ∀ n, (lsfDigits k n).length = k := by
  induction k with
  | zero => intro n; rfl
  | succ k ih => intro n; simp [lsfDigits, ih]

theorem lsfDigits_lt10 (k : ℕ) : ∀ n d, d ∈ lsfDigits k n → d < 10 := by
  induction k with
  | zero => intro n d h; simp [lsfDigits] at h
  | succ k ih =>
      intro n d h
      simp only [lsfDigits, List.mem_cons] at h
      rcases h with h | h
      · subst h; exact Nat.mod_lt _ (by norm_num)
      · exact ih _ _ h

theorem ofDigitsRev_lsfDigits (k : ℕ) : ∀ n, ofDigitsRev (lsfDigits k n) = n % 10 ^ k := by
  induction k with
  | zero => intro n; simp [lsfDigits, ofDigitsRev, Nat.mod_one]
  | succ k ih =>
      intro n
      simp only [lsfDigits, ofDigitsRev, ih]
      rw [show (10 : ℕ) ^ (k + 1) = 10 * 10 ^ k by ring, Nat.mod_mul]

/-- Fixed-width digit parser: exactly `k` digit characters. -/
def parseFixedAux : ℕ → ℕ → List Char → Option (ℕ × List Char)
  | acc, 0, cs => some (acc, cs)
  | _, _ + 1, [] => none
  | acc, k + 1, c :: cs =>
      if isDigitChar c then parseFixedAux (accDigit acc (digitVal c)) k cs else none

def parseFixed (k : ℕ) (cs : List Char) : Option (ℕ × List Char) := parseFixedAux 0 k cs

theorem parseFixedAux_append (ds : List ℕ) (h10 : ∀ d ∈ ds, d < 10) :
    ∀ (acc : ℕ) (rest : List Char),
      parseFixedAux acc ds.length (ds.map digitChar ++ rest)
        = some (ds.foldl accDigit acc, rest) := by
  induction ds with
  | nil => intro acc rest; rfl
  | cons d tl ih =>
      intro acc rest
      have hd : d < 10 := h10 d (by simp)
      simp only [List.map_cons, List.cons_append, List.length_cons, parseFixedAux,
        isDigitChar_digitChar d hd, if_true, List.foldl_cons]
      rw [digitVal_digitChar d hd]
      exact ih (fun x hx => h10 x (by simp [hx])) _ _

theorem parseFixed_padChars (k n : ℕ) (h : n < 10 ^ k) (rest : List Char) :
    parseFixed k (padChars k n ++ rest) = some (n, rest) := by
  unfold parseFixed padChars
  have happ := parseFixedAux_append ((lsfDigits k n).reverse)
    (fun d hd => lsfDigits_lt10 _ _ d (List.mem_reverse.mp hd)) 0 rest
  rw [show ((lsfDigits k n).reverse).length = k by simp [lsfDigits_length]] at happ
  rw [happ]
  have hval : ((lsfDigits k n).reverse).foldl accDigit 0 = n := by
    rw [foldl_accDigit_reverse, ofDigitsRev_lsfDigits]
    exact Nat.mod_eq_of_lt h
  rw [hval]

/-- Expect a single literal character. -/
def expectChar (c : Char) : List Char → Option (List Char)
  | [] => none
  | x :: xs => if x = c then some xs else none

theorem expectChar_cons (c : Char) (rest : List Char) : expectChar c (c :: rest) = some rest := by
  simp [expectChar]

/-! ## Dates

A JS `Date` is modelled by its (UTC) calendar fields, the level at which the
source reads and writes dates: `date-fns format('yyyy-MM-dd HH:mm:ss')`,
`Date.prototype.toISOString` and `new Date(isoString)`. -/

structure JsDate where
  year : ℕ
  month : ℕ
  day : ℕ
  hour : ℕ
  minute : ℕ
  second : ℕ
  ms : ℕ
deriving DecidableEq

/-- Calendar fields small enough to render at their fixed widths (every real
timestamp satisfies this). -/
def wfDate (d : JsDate) : Prop :=
  d.year < 10000 ∧ d.month < 100 ∧ d.day < 100 ∧ d.hour < 100 ∧ d.minute < 100
    ∧ d.second < 100 ∧ d.ms < 1000

instance (d : JsDate) : Decidable (wfDate d) := by unfold wfDate; infer_instance

/-- `format(date, 'yyyy-MM-dd HH:mm:ss')` from date-fns, as used by the CSV
exporter. -/
def formatDateTimeChars (d : JsDate) : List Char :=
  padChars 4 d.year ++ ('-' :: (padChars 2 d.month ++ ('-' :: (padChars 2 d.day
    ++ (' ' :: (padChars 2 d.hour ++ (':' :: (padChars 2 d.minute
    ++ (':' :: padChars 2 d.second)))))))))

def formatDateTime (d : JsDate) : String := String.mk (formatDateTimeChars d)

/-- `Date.prototype.toISOString`: `yyyy-MM-ddTHH:mm:ss.sssZ`. -/
def toISOStringChars (d : JsDate) : List Char :=
  padChars 4 d.year ++ ('-' :: (padChars 2 d.month ++ ('-' :: (padChars 2 d.day
    ++ ('T' :: (padChars 2 d.hour ++ (':' :: (padChars 2 d.minute
    ++ (':' :: (padChars 2 d.second ++ ('.' :: (padChars 3 d.ms ++ ['Z']))))))))))))

def toISOString (d : JsDate) : String := String.mk (toISOStringChars d)

/-- `new Date(isoString)` on a canonical ISO string (a failed parse models an
Invalid Date). -/
def parseISOChars (cs0 : List Char) : Option JsDate :=
  match parseFixed 4 cs0 with
  | none => none
  | some (y, cs1) =>
  match expectChar '-' cs1 with
  | none => none
  | some cs2 =>
  match parseFixed 2 cs2 with
  | none => none
  | some (mo, cs3) =>
  match expectChar '-' cs3 with
  | none => none
  | some cs4 =>
  match parseFixed 2 cs4 with
  | none => none
  | some (da, cs5) =>
  match expectChar 'T' cs5 with
  | none => none
  | some cs6 =>
  match parseFixed 2 cs6 with
  | none => none
  | some (h, cs7) =>
  match expectChar ':' cs7 with
  | none => none
  | some cs8 =>
  match parseFixed 2 cs8 with
  | none => none
  | some (mi, cs9) =>
  match expectChar ':' cs9 with
  | none => none
  | some cs10 =>
  match parseFixed 2 cs10 with
  | none => none
  | some (s, cs11) =>
  match expectChar '.' cs11 with
  | none => none
  | some cs12 =>
  match parseFixed 3 cs12 with
  | none => none
  | some (msv, cs13) =>
  match expectChar 'Z' cs13 with
  | none => none
  | some cs14 =>
  match cs14 with
  | [] => some { year := y, month := mo, day := da, hour := h, minute := mi
               , second := s, ms := msv }
  | _ => none

def parseISO (s : String) : Option JsDate := parseISOChars s.data

/-- Round trip: parsing a rendered ISO timestamp recovers the date. -/
theorem parseISO_toISOString (d : JsDate) (h : wfDate d) : parseISO (toISOString d) = some d := by
  obtain ⟨h1, h2, h3, h4, h5, h6, h7⟩ := h
  simp only [parseISO, toISOString, toISOStringChars, parseISOChars,
    parseFixed_padChars 4 d.year (by norm_num; omega),
    parseFixed_padChars 2 d.month (by norm_num; omega),
    parseFixed_padChars 2 d.day (by norm_num; omega),
    parseFixed_padChars 2 d.hour (by norm_num; omega),
    parseFixed_padChars 2 d.minute (by norm_num; omega),
    parseFixed_padChars 2 d.second (by norm_num; omega),
    parseFixed_padChars 3 d.ms (by norm_num; omega),
    expectChar_cons]

/-! ## JS number formatting used by the serializers -/

/-- `toFixed(2)` digits of a non-negative rational: the nearest multiple of
1/100, ties toward the larger value (ECMA `ToFixed`). -/
def nonnegFixed2 (q : ℚ) : List Char :=
  let m := (⌊q * 100 + 1 / 2⌋).toNat
  natChars (m / 100) ++ ('.' :: padChars 2 (m % 100))

/-- JS `Number.prototype.toFixed(2)`; a sign is rendered first for negative
values, and the non-finite values render as their `ToString`. -/
def toFixed2 : JNum → String
  | JNum.nan => "NaN"
  | JNum.inf => "Infinity"
  | JNum.ninf => "-Infinity"
  | JNum.fin q =>
      if q < 0 then String.mk ('-' :: nonnegFixed2 (-q)) else String.mk (nonnegFixed2 q)

/-- Least `k` (searched with enough fuel for any IEEE double) such that
`q * 10^k` is integral: the length of the exact decimal expansion. -/
def scaleSearchAux (q : ℚ) : ℕ → ℕ → Option ℕ
  | 0, _ => none
  | fuel + 1, k => if (q * 10 ^ k).den = 1 then some k else scaleSearchAux q fuel (k + 1)

def ratScale (q : ℚ) : Option ℕ := scaleSearchAux q 1101 0

/-- JS `Number.prototype.toString` for a finite value.  In the exact model a
double always has a terminating decimal expansion (its denominator is a power
of two bounded by 2^1074), rendered here in full; the fuel-exhausted fallback
is unreachable for values a double can take. -/
def ratChars (q : ℚ) : List Char :=
  match ratScale q with
  | none => ['?']
  | some 0 => intChars q.num
  | some (k + 1) =>
      let n := (q * 10 ^ (k + 1)).num
      let a := n.natAbs
      (if n < 0 then ['-'] else [])
        ++ natChars (a / 10 ^ (k + 1)) ++ ('.' :: padChars (k + 1) (a % 10 ^ (k + 1)))

/-- JS `Number.prototype.toString`. -/
def jnumToString : JNum → String
  | JNum.nan => "NaN"
  | JNum.inf => "Infinity"
  | JNum.ninf => "-Infinity"
  | JNum.fin q => String.mk (ratChars q)

/-- `toString` of an integer-valued JS number (inference time in ms). -/
def intToString (i : ℤ) : String := String.mk (intChars i)

/-! ## ScanResult from src/types and the CSV exporter from
src/services/export/csv-exporter.ts -/

structure ScanResult where
  id : String
  userId : String
  imageUri : String
  riceType : String
  capturedAt : JsDate
  latitude : Option ℚ
  longitude : Option ℚ
  rawOutput : RawModelOutput
  classifications : QualityClassifications
  inferenceTimeMs : ℤ
  syncedAt : Option JsDate
deriving DecidableEq

/-- `CSV_HEADERS` from csv-exporter.ts (verbatim, in order). -/
def CSV_HEADERS : List String :=
  [ "scan_id", "captured_at", "rice_type", "total_count", "broken_count"
  , "broken_percent", "long_count", "medium_count", "black_count", "chalky_count"
  , "red_count", "yellow_count", "green_count", "wk_length_avg", "wk_width_avg"
  , "wk_lw_ratio", "cielab_l", "cielab_a", "cielab_b", "milling_grade"
  , "grain_shape", "length_class", "inference_time_ms" ]

/-- `scanToCSVRow` from csv-exporter.ts. -/
def scanToCSVRow (scan : ScanResult) : List String :=
  let raw := scan.rawOutput
  let brokenPercent :=
    if (JNum.fin 0).jlt raw.count then
      toFixed2 ((raw.broken_count.jdiv raw.count).jmul (JNum.fin 100))
    else "0.00"
  [ scan.id
  , formatDateTime scan.capturedAt
  , scan.riceType
  , jnumToString raw.count
  , toFixed2 raw.broken_count
  , brokenPercent
  , toFixed2 raw.long_count
  , toFixed2 raw.medium_count
  , toFixed2 raw.black_count
  , toFixed2 raw.chalky_count
  , toFixed2 raw.red_count
  , toFixed2 raw.yellow_count
  , toFixed2 raw.green_count
  , toFixed2 raw.wk_length_avg
  , toFixed2 raw.wk_width_avg
  , toFixed2 raw.wk_lw_ratio_avg
  , toFixed2 raw.average_l
  , toFixed2 raw.average_a
  , toFixed2 raw.average_b
  , scan.classifications.millingGrade.grade
  , scan.classifications.grainShape.shape
  , scan.classifications.lengthClass
  , intToString scan.inferenceTimeMs ]

/-- The quote-doubling of `escapeCSVValue`. -/
def dupQuotes : List Char → List Char
  | [] => []
  | c :: cs => if c = '\"' then '\"' :: ('\"' :: dupQuotes cs) else c :: dupQuotes cs

/-- `escapeCSVValue` from csv-exporter.ts. -/
def escapeCSVValue (value : String) : String :=
  if value.data.contains ',' || value.data.contains '\"' || value.data.contains '\n' then
    String.mk ('\"' :: (dupQuotes value.data ++ ['\"']))
  else value

/-- `generateCSVContent` from csv-exporter.ts: header row then one escaped
row per scan, newline-separated, in input order. -/
def generateCSVContent (scans : List ScanResult) : String :=
  String.intercalate "\n" ((String.intercalate "," CSV_HEADERS) ::
    scans.map (fun scan => String.intercalate "," ((scanToCSVRow scan).map escapeCSVValue)))

/-- A concrete scan with 300 grains, 24 broken, 1500 ms inference time. -/
def scan300 : ScanResult :=
  { id := "scan-300", userId := "user-1", imageUri := "file:///tmp/rice300.jpg"
  , riceType := "White"
  , capturedAt := { year := 2025, month := 1, day := 2, hour := 3, minute := 4
                  , second := 5, ms := 6 }
  , latitude := none, longitude := none
  , rawOutput := mkRawQ 300 24 210 90 0 0 0 0 0 6 2 (5 / 2) 75 1 17
  , classifications := applyClassifications (mkRawQ 300 24 210 90 0 0 0 0 0 6 2 (5 / 2) 75 1 17)
  , inferenceTimeMs := 1500, syncedAt := none }

/-- A concrete scan whose raw output has count 0. -/
def scanZero : ScanResult :=
  { id := "scan-zero", userId := "user-1", imageUri := "file:///tmp/rice0.jpg"
  , riceType := "Paddy"
  , capturedAt := { year := 2024, month := 12, day := 31, hour := 23, minute := 59
                  , second := 58, ms := 999 }
  , latitude := none, longitude := none
  , rawOutput := rawZero
  , classifications := applyClassifications rawZero
  , inferenceTimeMs := 42, syncedAt := none }

/-- Counterexample for C3: the schema has 23 columns, not 22, and the
inference-time column — a numeric field other than total count — is rendered
by `toString` with no decimal places ("1500", not "1500.00"). -/
theorem C3_csv_row_counterexample :
    CSV_HEADERS.length = 23
    ∧ CSV_HEADERS.length ≠ 22
    ∧ (scanToCSVRow scan300).length = 23
    ∧ (scanToCSVRow scan300).length ≠ 22
    ∧ (scanToCSVRow scan300).getD 22 "" = "1500"
    ∧ "1500" ≠ "1500.00" := by
  refine ⟨by decide, by decide, by decide, by decide, by decide, by decide⟩

/-- C3 (amended): the row serializer produces exactly the 23 columns of the
stated order (scan id, captured-at `yyyy-MM-dd HH:mm:ss`, rice type, total
count via `toString`, 2-decimal broken count, fresh broken percent,
2-decimal long/medium/black/chalky/red/yellow/green counts, 2-decimal
length/width/ratio and CIELAB L*/a*/b*, grade/shape/length-class labels,
inference time via `toString` with no decimals); the broken percent is
recomputed as broken_count/count*100 and is "0.00" when the count is not
positive. -/
theorem C3_csv_row_schema :
    (∀ scan : ScanResult,
      (scanToCSVRow scan).length = 23
      ∧ scanToCSVRow scan =
        [ scan.id
        , formatDateTime scan.capturedAt
        , scan.riceType
        , jnumToString scan.rawOutput.count
        , toFixed2 scan.rawOutput.broken_count
        , (if (JNum.fin 0).jlt scan.rawOutput.count then
            toFixed2 ((scan.rawOutput.broken_count.jdiv scan.rawOutput.count).jmul
              (JNum.fin 100))
          else "0.00")
        , toFixed2 scan.rawOutput.long_count
        , toFixed2 scan.rawOutput.medium_count
        , toFixed2 scan.rawOutput.black_count
        , toFixed2 scan.rawOutput.chalky_count
        , toFixed2 scan.rawOutput.red_count
        , toFixed2 scan.rawOutput.yellow_count
        , toFixed2 scan.rawOutput.green_count
        , toFixed2 scan.rawOutput.wk_length_avg
        , toFixed2 scan.rawOutput.wk_width_avg
        , toFixed2 scan.rawOutput.wk_lw_ratio_avg
        , toFixed2 scan.rawOutput.average_l
        , toFixed2 scan.rawOutput.average_a
        , toFixed2 scan.rawOutput.average_b
        , scan.classifications.millingGrade.grade
        , scan.classifications.grainShape.shape
        , scan.classifications.lengthClass
        , intToString scan.inferenceTimeMs ])
    ∧ (∀ scan : ScanResult, scan.rawOutput.count = JNum.fin 0 →
        (scanToCSVRow scan).getD 5 "" = "0.00")
    ∧ (∀ (scan : ScanResult) (c : ℚ), scan.rawOutput.count = JNum.fin c → 0 < c →
        (scanToCSVRow scan).getD 5 ""
          = toFixed2 ((scan.rawOutput.broken_count.jdiv (JNum.fin c)).jmul (JNum.fin 100))) := by
  refine ⟨fun scan => ⟨rfl, rfl⟩, ?_, ?_⟩
  · intro scan h
    simp [scanToCSVRow, h, JNum.jlt]
  · intro scan c h hc
    simp [scanToCSVRow, h, JNum.jlt, hc]

/-- Witness for C3 (amended) at the concrete zero-count and positive-count
scans. -/
theorem C3_csv_row_schema_witness :
    (scanZero.rawOutput.count = JNum.fin 0 ∧ (scanToCSVRow scanZero).getD 5 "" = "0.00")
    ∧ (scan300.rawOutput.count = JNum.fin 300 ∧ (0 : ℚ) < 300
      ∧ (scanToCSVRow scan300).getD 5 ""
          = toFixed2 ((scan300.rawOutput.broken_count.jdiv (JNum.fin 300)).jmul (JNum.fin 100))) :=
  ⟨⟨rfl, C3_csv_row_schema.2.1 scanZero rfl⟩,
   ⟨rfl, by norm_num, C3_csv_row_schema.2.2 scan300 300 rfl (by norm_num)⟩⟩

/-! ## Persistence row and the retention-bounded store
(src/services/database/scan-repository.ts) -/

structure ScanRow where
  id : String
  user_id : String
  rice_type : String
  image_uri : String
  captured_at : String
  latitude : Option ℚ
  longitude : Option ℚ
  count : JNum
  broken_count : JNum
  long_count : JNum
  medium_count : JNum
  black_count : JNum
  chalky_count : JNum
  red_count : JNum
  yellow_count : JNum
  green_count : JNum
  wk_length_avg : JNum
  wk_width_avg : JNum
  wk_lw_ratio_avg : JNum
  average_l : JNum
  average_a : JNum
  average_b : JNum
  milling_grade : String
  grain_shape : String
  length_class : String
  chalkiness_status : String
  warnings_json : String
  inference_time_ms : ℤ
  synced_at : Option String
deriving DecidableEq

/-- `synced_at IS NOT NULL`. -/
def rowSynced (r : ScanRow) : Bool := r.synced_at.isSome

/-- The eviction subquery's ordering:
`WHERE synced_at IS NOT NULL ORDER BY captured_at ASC`
(SQLite TEXT ordering; ISO timestamps sort chronologically). -/
def sortedSynced (store : List ScanRow) : List ScanRow :=
  (store.filter rowSynced).mergeSort (fun a b => decide (a.captured_at ≤ b.captured_at))

/-- The ids selected by the eviction subquery:
`SELECT id ... ORDER BY captured_at ASC LIMIT toDelete` with
`toDelete = currentCount - SCAN_HISTORY_LIMIT + 1`. -/
def evictIds (store : List ScanRow) : List String :=
  ((sortedSynced store).take (store.length - SCAN_HISTORY_LIMIT + 1)).map (fun r => r.id)

/-- `createScan` from scan-repository.ts, as a pure function on the table
contents: when the row count is at or over `SCAN_HISTORY_LIMIT`, delete the
oldest-by-captured-at synced rows (by id), then insert the new row. -/
def createScan (store : List ScanRow) (row : ScanRow) : List ScanRow :=
  if SCAN_HISTORY_LIMIT ≤ store.length then
    (store.filter (fun r => !((evictIds store).contains r.id))) ++ [row]
  else
    store ++ [row]

theorem mem_sortedSynced (store : List ScanRow) (r : ScanRow) :
    r ∈ sortedSynced store ↔ r ∈ store ∧ rowSynced r = true := by
  unfold sortedSynced
  rw [(List.mergeSort_perm _ _).mem_iff]
  exact List.mem_filter

theorem sortedSynced_pairwise (store : List ScanRow) :
    List.Pairwise (fun a b => (decide (a.captured_at ≤ b.captured_at)) = true)
      (sortedSynced store) := by
  apply List.sorted_mergeSort
  · intro a b c hab hbc
    simp only [decide_eq_true_eq] at hab hbc ⊢
    exact le_trans hab hbc
  · intro a b
    simp only [Bool.or_eq_true, decide_eq_true_eq]
    exact le_total _ _

theorem take_sortedSynced_mem (store : List ScanRow) (n : ℕ) (r : ScanRow)
    (h : r ∈ (sortedSynced store).take n) : r ∈ store ∧ rowSynced r = true :=
  (mem_sortedSynced store r).mp ((List.take_sublist _ _).subset h)

theorem mem_evictIds (store : List ScanRow) (hids : (store.map (fun r => r.id)).Nodup)
    (r : ScanRow) (hr : r ∈ store) :
    r.id ∈ evictIds store
      ↔ r ∈ (sortedSynced store).take (store.length - SCAN_HISTORY_LIMIT + 1) := by
  constructor
  · intro h
    obtain ⟨v, hv, hvid⟩ := List.mem_map.mp h
    have hvstore : v ∈ store := (take_sortedSynced_mem store _ v hv).1
    have heq : v = r := List.inj_on_of_nodup_map hids hvstore hr hvid
    exact heq ▸ hv
  · intro h
    exact List.mem_map.mpr ⟨r, h, rfl⟩

theorem contains_evictIds (store : List ScanRow) (x : String) :
    (evictIds store).contains x = true ↔ x ∈ evictIds store :=
  List.elem_iff

/-- C9 (amended): an insert never deletes an unsynced row; every row the
insert deletes is synced and no newer (by captured-at) than any synced row it
keeps; and the row count stays within the cap of 100 provided enough synced
rows exist to evict (at least `currentCount - 99`).  With too few synced rows
the DELETE removes fewer rows and the count can exceed 100 (see the
counterexample). -/
theorem C9_retention_amended :
    ∀ (store : List ScanRow) (row : ScanRow),
      (store.map (fun r => r.id)).Nodup →
      row.id ∉ store.map (fun r => r.id) →
      ((∀ r ∈ store, rowSynced r = false → r ∈ createScan store row)
      ∧ (∀ r ∈ store, r ∉ createScan store row →
          rowSynced r = true
          ∧ ∀ s ∈ store, rowSynced s = true → s ∈ createScan store row →
              r.captured_at ≤ s.captured_at)
      ∧ (SCAN_HISTORY_LIMIT ≤ store.length →
          store.length - SCAN_HISTORY_LIMIT + 1 ≤ (store.filter rowSynced).length →
          (createScan store row).length ≤ SCAN_HISTORY_LIMIT)) := by
  intro store row hids hfresh
  by_cases hcap : SCAN_HISTORY_LIMIT ≤ store.length
  case neg =>
    have hres : createScan store row = store ++ [row] := by
      unfold createScan; rw [if_neg hcap]
    refine ⟨?_, ?_, ?_⟩
    · intro r hr _
      rw [hres]; exact List.mem_append_left _ hr
    · intro r hr hnot
      exact absurd (by rw [hres]; exact List.mem_append_left _ hr) hnot
    · intro h _
      exact absurd h hcap
  case pos =>
    have hres : createScan store row
        = (store.filter (fun r => !((evictIds store).contains r.id))) ++ [row] := by
      unfold createScan; rw [if_pos hcap]
    refine ⟨?_, ?_, ?_⟩
    · -- unsynced rows survive
      intro r hr hunsync
      rw [hres]
      apply List.mem_append_left
      rw [List.mem_filter]
      refine ⟨hr, ?_⟩
      have hnot : r.id ∉ evictIds store := by
        intro hmem
        have hrV := (mem_evictIds store hids r hr).mp hmem
        have hsync := (take_sortedSynced_mem store _ r hrV).2
        rw [hunsync] at hsync
        exact Bool.false_ne_true hsync
      have hcf : (evictIds store).contains r.id = false :=
        Bool.eq_false_iff.mpr (fun h => hnot ((contains_evictIds store r.id).mp h))
      rw [hcf]; decide
    · -- deleted rows are synced and oldest among kept synced rows
      intro r hr hnot
      rw [hres] at hnot
      have hrid : r.id ∈ evictIds store := by
        by_contra hmem
        apply hnot
        apply List.mem_append_left
        rw [List.mem_filter]
        refine ⟨hr, ?_⟩
        have hcf : (evictIds store).contains r.id = false :=
          Bool.eq_false_iff.mpr (fun h => hmem ((contains_evictIds store r.id).mp h))
        rw [hcf]; decide
      have hrV := (mem_evictIds store hids r hr).mp hrid
      refine ⟨(take_sortedSynced_mem store _ r hrV).2, ?_⟩
      intro s hs hssync hsres
      have hsne : s ≠ row := by
        intro he
        exact hfresh (he ▸ List.mem_map.mpr ⟨s, hs, rfl⟩)
      have hsfilter : s ∈ store.filter (fun x => !((evictIds store).contains x.id)) := by
        rw [hres] at hsres
        rcases List.mem_append.mp hsres with h | h
        · exact h
        · simp only [List.mem_singleton] at h
          exact absurd h hsne
      have hsid : s.id ∉ evictIds store := by
        rw [List.mem_filter] at hsfilter
        have h2 := hsfilter.2
        intro hmem
        rw [(contains_evictIds store s.id).mpr hmem] at h2
        simp at h2
      have hsS : s ∈ sortedSynced store := (mem_sortedSynced store s).mpr ⟨hs, hssync⟩
      have hsD : s ∈ (sortedSynced store).drop (store.length - SCAN_HISTORY_LIMIT + 1) := by
        rw [← List.take_append_drop (store.length - SCAN_HISTORY_LIMIT + 1)
          (sortedSynced store)] at hsS
        rcases List.mem_append.mp hsS with h | h
        · exact absurd ((mem_evictIds store hids s hs).mpr h) hsid
        · exact h
      have hpw := sortedSynced_pairwise store
      rw [← List.take_append_drop (store.length - SCAN_HISTORY_LIMIT + 1)
        (sortedSynced store)] at hpw
      have hrel := (List.pairwise_append.mp hpw).2.2 r hrV s hsD
      simpa using hrel
    · -- cap respected when enough synced rows exist
      intro hlen hsynced
      rw [hres, List.length_append]
      have hperm := List.filter_append_perm (fun r => !((evictIds store).contains r.id)) store
      have hlensum := hperm.length_eq
      rw [List.length_append] at hlensum
      have hVsub : ∀ v ∈ (sortedSynced store).take (store.length - SCAN_HISTORY_LIMIT + 1),
          v ∈ store.filter (fun x => !(!((evictIds store).contains x.id))) := by
        intro v hv
        rw [List.mem_filter]
        have hvs := take_sortedSynced_mem store _ v hv
        refine ⟨hvs.1, ?_⟩
        have hct : (evictIds store).contains v.id = true :=
          (contains_evictIds store v.id).mpr ((mem_evictIds store hids v hvs.1).mpr hv)
        rw [hct]; decide
      have hVnodup : ((sortedSynced store).take (store.length - SCAN_HISTORY_LIMIT + 1)).Nodup := by
        have h1 : ((store.filter rowSynced).map (fun r => r.id)).Nodup :=
          List.Nodup.sublist ((List.filter_sublist store).map _) hids
        have hp : ((sortedSynced store).map (fun r => r.id)).Perm
            ((store.filter rowSynced).map (fun r => r.id)) := by
          unfold sortedSynced
          exact (List.mergeSort_perm _ _).map _
        have h2 : ((sortedSynced store).map (fun r => r.id)).Nodup := hp.symm.nodup h1
        have h3 : (((sortedSynced store).take
            (store.length - SCAN_HISTORY_LIMIT + 1)).map (fun r => r.id)).Nodup :=
          List.Nodup.sublist ((List.take_sublist _ _).map _) h2
        exact List.Nodup.of_map _ h3
      have hsubperm := List.Nodup.subperm hVnodup (fun v hv => hVsub v hv)
      have hfl := hsubperm.length_le
      have hlenV : ((sortedSynced store).take
          (store.length - SCAN_HISTORY_LIMIT + 1)).length
          = store.length - SCAN_HISTORY_LIMIT + 1 := by
        rw [List.length_take]
        have hlenS : (sortedSynced store).length = (store.filter rowSynced).length := by
          unfold sortedSynced
          exact List.length_mergeSort _
        rw [hlenS]
        exact min_eq_left hsynced
      rw [hlenV] at hfl
      simp only [List.length_singleton]
      unfold SCAN_HISTORY_LIMIT at hcap hfl ⊢
      omega

/-- An unsynced row with id `i` and zeroed fields. -/
def unsyncedRow (i : ℕ) : ScanRow :=
  { id := String.mk (natChars i), user_id := "user-1", rice_type := "White"
  , image_uri := "", captured_at := "2025-01-01T00:00:00.000Z"
  , latitude := none, longitude := none
  , count := JNum.fin 0, broken_count := JNum.fin 0, long_count := JNum.fin 0
  , medium_count := JNum.fin 0, black_count := JNum.fin 0, chalky_count := JNum.fin 0
  , red_count := JNum.fin 0, yellow_count := JNum.fin 0, green_count := JNum.fin 0
  , wk_length_avg := JNum.fin 0, wk_width_avg := JNum.fin 0
  , wk_lw_ratio_avg := JNum.fin 0, average_l := JNum.fin 0, average_a := JNum.fin 0
  , average_b := JNum.fin 0
  , milling_grade := "", grain_shape := "", length_class := "", chalkiness_status := ""
  , warnings_json := "", inference_time_ms := 0, synced_at := none }

/-- A store already at the cap, with no synced row. -/
def store100 : List ScanRow := (List.range 100).map unsyncedRow

/-- Counterexample for C9: inserting into a full store of 100 unsynced rows
deletes nothing (only synced rows are eviction candidates), so the row count
reaches 101, exceeding the cap. -/
theorem C9_retention_counterexample :
    store100.length = 100
    ∧ (∀ r ∈ store100, rowSynced r = false)
    ∧ (createScan store100 (unsyncedRow 100)).length = 101 := by
  refine ⟨by decide, by decide, ?_⟩
  have hfilter : store100.filter rowSynced = [] := by decide
  have hsorted : sortedSynced store100 = [] := by
    unfold sortedSynced
    rw [hfilter]
    exact List.mergeSort_nil
  have hevict : evictIds store100 = [] := by
    unfold evictIds
    rw [hsorted]
    rfl
  unfold createScan
  rw [if_pos (by decide : SCAN_HISTORY_LIMIT ≤ store100.length), hevict]
  have hkeep : store100.filter (fun r => !(([] : List String).contains r.id)) = store100 := by
    have : (fun r : ScanRow => !(([] : List String).contains r.id)) = fun _ => true := by
      funext r
      rfl
    rw [this, List.filter_true]
  rw [hkeep, List.length_append]
  decide

/-- Witness for C9 (amended) at the empty store. -/
theorem C9_retention_amended_witness :
    ((([] : List ScanRow).map (fun r => r.id)).Nodup)
    ∧ ((unsyncedRow 0).id ∉ ([] : List ScanRow).map (fun r => r.id))
    ∧ ((∀ r ∈ ([] : List ScanRow), rowSynced r = false → r ∈ createScan [] (unsyncedRow 0))
      ∧ (∀ r ∈ ([] : List ScanRow), r ∉ createScan [] (unsyncedRow 0) →
          rowSynced r = true
          ∧ ∀ s ∈ ([] : List ScanRow), rowSynced s = true → s ∈ createScan [] (unsyncedRow 0) →
              r.captured_at ≤ s.captured_at)
      ∧ (SCAN_HISTORY_LIMIT ≤ ([] : List ScanRow).length →
          ([] : List ScanRow).length - SCAN_HISTORY_LIMIT + 1
            ≤ (([] : List ScanRow).filter rowSynced).length →
          (createScan [] (unsyncedRow 0)).length ≤ SCAN_HISTORY_LIMIT)) :=
  ⟨List.nodup_nil, by simp,
   C9_retention_amended [] (unsyncedRow 0) List.nodup_nil (by simp)⟩

/-! ## JSON serialization of the classification sub-objects
(`JSON.stringify` / `JSON.parse` on the persistence TEXT columns)

The parsers accept the canonical form that the writes produce.  Characters
are handled exactly; the round trips are proved for strings without
characters needing escapes (every string the classifier produces is such). -/

def hexChar (d : ℕ) : Char := if d < 10 then digitChar d else Char.ofNat (87 + d)

/-- `JSON.stringify` escaping of one character. -/
def jsonEscapeChar (c : Char) : List Char :=
  if c = '\"' then ['\\', '\"']
  else if c = '\\' then ['\\', '\\']
  else if c = Char.ofNat 8 then ['\\', 'b']
  else if c = Char.ofNat 9 then ['\\', 't']
  else if c = Char.ofNat 10 then ['\\', 'n']
  else if c = Char.ofNat 12 then ['\\', 'f']
  else if c = Char.ofNat 13 then ['\\', 'r']
  else if c.toNat < 32 then
    ['\\', 'u', '0', '0', hexChar (c.toNat / 16), hexChar (c.toNat % 16)]
  else [c]

/-- A character that JSON renders as itself. -/
def plainChar (c : Char) : Bool :=
  decide (32 ≤ c.toNat) && !(decide (c = '\"')) && !(decide (c = '\\'))

def plainStr (s : String) : Bool := s.data.all plainChar

theorem jsonEscapeChar_plain (c : Char) (h : plainChar c = true) : jsonEscapeChar c = [c] := by
  simp only [plainChar, Bool.and_eq_true, Bool.not_eq_true', decide_eq_true_eq,
    decide_eq_false_iff_not] at h
  obtain ⟨⟨h1, h2⟩, h3⟩ := h
  have hlow : ¬ c.toNat < 32 := by omega
  have key : ∀ m : ℕ, ¬ 32 ≤ (Char.ofNat m).toNat → c ≠ Char.ofNat m :=
    fun m hm he => hm (he ▸ h1)
  unfold jsonEscapeChar
  rw [if_neg h2, if_neg h3, if_neg (key 8 (by decide)), if_neg (key 9 (by decide)),
    if_neg (key 10 (by decide)), if_neg (key 12 (by decide)),
    if_neg (key 13 (by decide)), if_neg hlow]

theorem flatMap_jsonEscape_plain (l : List Char) (h : l.all plainChar = true) :
    l.flatMap jsonEscapeChar = l := by
  induction l with
  | nil => rfl
  | cons c tl ih =>
      simp only [List.all_cons, Bool.and_eq_true] at h
      simp only [List.flatMap_cons, jsonEscapeChar_plain c h.1, ih h.2,
        List.singleton_append]

/-- `JSON.stringify` of a string value. -/
def renderJsonString (s : String) : List Char :=
  '\"' :: (s.data.flatMap jsonEscapeChar ++ ['\"'])

/-- Scan a JSON string body up to its closing quote (fuel-indexed; supports
the quote and backslash escapes). -/
def parseJsonStrAux : ℕ → List Char → Option (List Char × List Char)
  | 0, _ => none
  | _ + 1, [] => none
  | fuel + 1, c :: cs =>
      if c = '\"' then some ([], cs)
      else if c = '\\' then
        match cs with
        | [] => none
        | e :: cs' =>
            if e = '\"' ∨ e = '\\' then
              match parseJsonStrAux fuel cs' with
              | some (out, rest) => some (e :: out, rest)
              | none => none
            else none
      else
        match parseJsonStrAux fuel cs with
        | some (out, rest) => some (c :: out, rest)
        | none => none

/-- Parse a JSON string value. -/
def parseJsonString (cs : List Char) : Option (String × List Char) :=
  match cs with
  | [] => none
  | c :: cs' =>
      if c = '\"' then
        match parseJsonStrAux (cs'.length + 1) cs' with
        | some (out, rest) => some (String.mk out, rest)
        | none => none
      else none

theorem parseJsonStrAux_plain (l : List Char) (h : l.all plainChar = true) :
    ∀ fuel, l.length + 1 ≤ fuel → ∀ rest,
      parseJsonStrAux fuel (l ++ ('\"' :: rest)) = some (l, rest) := by
  induction l with
  | nil =>
      intro fuel hf rest
      match fuel, hf with
      | f + 1, _ =>
        simp [parseJsonStrAux]
  | cons c tl ih =>
      intro fuel hf rest
      simp only [List.all_cons, Bool.and_eq_true] at h
      have hph := h.1
      simp only [plainChar, Bool.and_eq_true, Bool.not_eq_true', decide_eq_true_eq,
        decide_eq_false_iff_not] at hph
      obtain ⟨⟨h1, h2⟩, h3⟩ := hph
      match fuel, hf with
      | f + 1, hf =>
        have hftl : tl.length + 1 ≤ f := by
          simp only [List.length_cons] at hf
          omega
        simp only [List.cons_append, parseJsonStrAux, if_neg h2, if_neg h3]
        rw [show tl.append ('\"' :: rest) = tl ++ ('\"' :: rest) from rfl,
          ih h.2 f hftl rest]

theorem parseJsonString_render (s : String) (h : plainStr s = true) (rest : List Char) :
    parseJsonString (renderJsonString s ++ rest) = some (s, rest) := by
  unfold renderJsonString parseJsonString
  rw [flatMap_jsonEscape_plain s.data h]
  simp only [List.cons_append, List.append_assoc, List.singleton_append, List.nil_append]
  rw [if_pos trivial,
    parseJsonStrAux_plain s.data h ((s.data ++ '\"' :: rest).length + 1)
      (by simp [List.length_append]) rest]

/-! ### JSON numbers (the `percentage` field of a warning) -/

/-- Digit scanner that also counts the digits consumed. -/
def parseDigitsCountAux : ℕ → ℕ → List Char → ℕ × ℕ × List Char
  | acc, cnt, [] => (acc, cnt, [])
  | acc, cnt, c :: cs =>
      if isDigitChar c then parseDigitsCountAux (accDigit acc (digitVal c)) (cnt + 1) cs
      else (acc, cnt, c :: cs)

/-- One or more fraction digits, counted. -/
def parseFracDigits : List Char → Option (ℕ × ℕ × List Char)
  | [] => none
  | c :: cs => if isDigitChar c then some (parseDigitsCountAux (digitVal c) 1 cs) else none

/-- Parse an unsigned JSON number (integer part, optional fraction). -/
def parseNonnegNum (cs : List Char) : Option (ℚ × List Char) :=
  match parseNatChars cs with
  | none => none
  | some (ip, rest1) =>
      match rest1 with
      | [] => some ((ip : ℚ), [])
      | c :: rest2 =>
          if c = '.' then
            match parseFracDigits rest2 with
            | none => none
            | some (fp, cnt, rest3) => some ((ip : ℚ) + (fp : ℚ) / (10 : ℚ) ^ cnt, rest3)
          else some ((ip : ℚ), c :: rest2)

/-- Parse a JSON number (optional leading minus). -/
def parseJsonNum (cs : List Char) : Option (ℚ × List Char) :=
  match cs with
  | [] => none
  | c :: cs' =>
      if c = '-' then
        match parseNonnegNum cs' with
        | some (v, rest) => some (-v, rest)
        | none => none
      else parseNonnegNum (c :: cs')

/-- A legal continuation after a JSON number: neither a digit nor a dot. -/
def numTailOk : List Char → Bool
  | [] => true
  | c :: _ => !(isDigitChar c) && !(decide (c = '.'))

theorem numTailOk_headNonDigit (rest : List Char) (h : numTailOk rest = true) :
    headNonDigit rest = true := by
  cases rest with
  | nil => rfl
  | cons c cs =>
      simp only [numTailOk, Bool.and_eq_true] at h
      simp [headNonDigit, h.1]

theorem parseDigitsCountAux_append (ds : List ℕ) (h10 : ∀ d ∈ ds, d < 10) :
    ∀ (acc cnt : ℕ) (rest : List Char), headNonDigit rest = true →
      parseDigitsCountAux acc cnt (ds.map digitChar ++ rest)
        = (ds.foldl accDigit acc, cnt + ds.length, rest) := by
  induction ds with
  | nil =>
      intro acc cnt rest hrest
      cases rest with
      | nil => rfl
      | cons c cs =>
          have hc : isDigitChar c = false := by simpa [headNonDigit] using hrest
          simp [parseDigitsCountAux, hc]
  | cons d tl ih =>
      intro acc cnt rest hrest
      have hd : d < 10 := h10 d (by simp)
      simp only [List.map_cons, List.cons_append, parseDigitsCountAux,
        isDigitChar_digitChar d hd, if_true, List.foldl_cons, List.length_cons,
        List.append_eq]
      rw [digitVal_digitChar d hd, ih (fun x hx => h10 x (by simp [hx])) _ _ _ hrest]
      have hcnt : cnt + 1 + tl.length = cnt + (tl.length + 1) := by omega
      rw [hcnt]

theorem parseFracDigits_padChars (K m : ℕ) (hK : 0 < K) (hm : m < 10 ^ K)
    (rest : List Char) (hrest : headNonDigit rest = true) :
    parseFracDigits (padChars K m ++ rest) = some (m, K, rest) := by
  unfold padChars
  have hmem : ∀ d ∈ (lsfDigits K m).reverse, d < 10 :=
    fun d hd => lsfDigits_lt10 _ _ d (List.mem_reverse.mp hd)
  have hlen : ((lsfDigits K m).reverse).length = K := by simp [lsfDigits_length]
  have hval : ((lsfDigits K m).reverse).foldl accDigit 0 = m := by
    rw [foldl_accDigit_reverse, ofDigitsRev_lsfDigits]
    exact Nat.mod_eq_of_lt hm
  cases hcase : (lsfDigits K m).reverse with
  | nil =>
      exfalso
      have := hlen
      rw [hcase] at this
      simp at this
      omega
  | cons d tl =>
      have hd10 : d < 10 := hmem d (by rw [hcase]; simp)
      simp only [hcase, List.map_cons, List.cons_append, parseFracDigits,
        isDigitChar_digitChar d hd10, if_true]
      rw [digitVal_digitChar d hd10,
        parseDigitsCountAux_append tl (fun x hx => hmem x (by rw [hcase]; simp [hx]))
          _ _ _ hrest]
      rw [hcase] at hval hlen
      simp only [List.foldl_cons] at hval
      have hacc : accDigit 0 d = d := by simp [accDigit]
      rw [hacc] at hval
      simp only [List.length_cons] at hlen
      rw [hval, show 1 + tl.length = K by omega]


theorem natChars_head (m : ℕ) : ∃ d tl, natChars m = digitChar d :: tl ∧ d < 10 := by
  by_cases h0 : m = 0
  · exact ⟨0, [], by simp [natChars, h0], by norm_num⟩
  · have hne : (natDigitsRev m).reverse ≠ [] := by
      match m, h0 with
      | n + 1, _ =>
        show (natDigitsRevAux (n + 1) (n + 1)).reverse ≠ []
        simp [natDigitsRevAux]
    cases hcase : (natDigitsRev m).reverse with
    | nil => exact absurd hcase hne
    | cons d tl =>
        refine ⟨d, tl.map digitChar, ?_, ?_⟩
        · simp [natChars, h0, hcase]
        · have hdmem : d ∈ (natDigitsRev m).reverse := by rw [hcase]; simp
          exact natDigitsRevAux_lt10 m m d (List.mem_reverse.mp hdmem)

theorem digitChar_ne_dash (d : ℕ) (h : d < 10) : ¬ (digitChar d = '-') := by
  interval_cases d <;> decide

theorem dot_headNonDigit (cs : List Char) : headNonDigit ('.' :: cs) = true := by
  simp [headNonDigit, isDigitChar]

theorem parseNonnegNum_int (m : ℕ) (rest : List Char) (hrest : numTailOk rest = true) :
    parseNonnegNum (natChars m ++ rest) = some ((m : ℚ), rest) := by
  unfold parseNonnegNum
  rw [parseNatChars_natChars m rest (numTailOk_headNonDigit rest hrest)]
  dsimp only
  cases rest with
  | nil => rfl
  | cons c cs =>
      simp only [numTailOk, Bool.and_eq_true, Bool.not_eq_true', decide_eq_false_iff_not] at hrest
      dsimp only
      rw [if_neg hrest.2]

theorem parseNonnegNum_frac (ip K m : ℕ) (hK : 0 < K) (hm : m < 10 ^ K)
    (rest : List Char) (hrest : headNonDigit rest = true) :
    parseNonnegNum (natChars ip ++ ('.' :: (padChars K m ++ rest)))
      = some ((ip : ℚ) + (m : ℚ) / (10 : ℚ) ^ K, rest) := by
  unfold parseNonnegNum
  rw [parseNatChars_natChars ip _ (dot_headNonDigit _)]
  dsimp only
  rw [if_pos rfl, parseFracDigits_padChars K m hK hm rest hrest]

theorem parseJsonNum_of_natChars (m : ℕ) (tail : List Char) :
    parseJsonNum (natChars m ++ tail) = parseNonnegNum (natChars m ++ tail) := by
  obtain ⟨d, tl, hcons, hd⟩ := natChars_head m
  rw [hcons]
  simp only [List.cons_append, parseJsonNum, if_neg (digitChar_ne_dash d hd)]

theorem scaleSearchAux_den (q : ℚ) :
    ∀ fuel k0 k, scaleSearchAux q fuel k0 = some k → (q * 10 ^ k).den = 1 := by
  intro fuel
  induction fuel with
  | zero => intro k0 k h; simp [scaleSearchAux] at h
  | succ f ih =>
      intro k0 k h
      by_cases hden : (q * 10 ^ k0).den = 1
      · simp only [scaleSearchAux, if_pos hden, Option.some.injEq] at h
        rw [← h]; exact hden
      · simp only [scaleSearchAux, if_neg hden] at h
        exact ih _ _ h

theorem intCast_natAbs_of_neg (z : ℤ) (hz : z < 0) : ((z.natAbs : ℕ) : ℚ) = -(z : ℚ) := by
  push_cast [Int.cast_natAbs]
  rw [abs_of_neg (show (z : ℚ) < 0 by exact_mod_cast hz)]

theorem intCast_natAbs_of_nonneg (z : ℤ) (hz : 0 ≤ z) : ((z.natAbs : ℕ) : ℚ) = (z : ℚ) := by
  push_cast [Int.cast_natAbs]
  rw [abs_of_nonneg (show (0 : ℚ) ≤ (z : ℚ) by exact_mod_cast hz)]

theorem cast_div_add_mod (a K : ℕ) :
    ((a / 10 ^ K : ℕ) : ℚ) + ((a % 10 ^ K : ℕ) : ℚ) / (10 : ℚ) ^ K = (a : ℚ) / (10 : ℚ) ^ K := by
  have hpow : ((10 : ℚ) ^ K) ≠ 0 := by positivity
  rw [eq_div_iff hpow, add_mul, div_mul_cancel₀ _ hpow]
  have h := Nat.div_add_mod a (10 ^ K)
  rw [Nat.mul_comm] at h
  exact_mod_cast h

/-- Round trip for JSON numbers rendered by `ratChars` (terminating decimal
values, i.e. every value an IEEE double can take). -/
theorem parseJsonNum_ratChars (q : ℚ) (k : ℕ) (hk : ratScale q = some k)
    (rest : List Char) (hrest : numTailOk rest = true) :
    parseJsonNum (ratChars q ++ rest) = some (q, rest) := by
  have hden := scaleSearchAux_den q 1101 0 k hk
  cases k with
  | zero =>
      have hq1 : q.den = 1 := by
        have he : q * 10 ^ 0 = q := by ring
        rwa [he] at hden
      have hqnum : (q.num : ℚ) = q := (Rat.den_eq_one_iff q).mp hq1
      simp only [ratChars, ratScale] at hk ⊢
      rw [hk]
      dsimp only
      unfold intChars
      by_cases hneg : q.num < 0
      · rw [if_pos hneg]
        simp only [List.cons_append, parseJsonNum]
        rw [if_pos trivial, parseNonnegNum_int q.num.natAbs rest hrest]
        dsimp only
        rw [intCast_natAbs_of_neg q.num hneg, neg_neg, hqnum]
      · rw [if_neg hneg, parseJsonNum_of_natChars, parseNonnegNum_int q.num.natAbs rest hrest]
        rw [intCast_natAbs_of_nonneg q.num (not_lt.mp hneg), hqnum]
  | succ kk =>
      have hK : 0 < kk + 1 := Nat.succ_pos kk
      have hpow : ((10 : ℚ) ^ (kk + 1)) ≠ 0 := by positivity
      have hq10 : q * 10 ^ (kk + 1) = (((q * 10 ^ (kk + 1)).num : ℤ) : ℚ) :=
        ((Rat.den_eq_one_iff _).mp hden).symm
      have hq : q = (((q * 10 ^ (kk + 1)).num : ℤ) : ℚ) / (10 : ℚ) ^ (kk + 1) := by
        rw [eq_div_iff hpow]
        exact hq10
      simp only [ratChars, ratScale] at hk ⊢
      rw [hk]
      dsimp only
      set n := (q * 10 ^ (kk + 1)).num with hn
      set a := n.natAbs with ha
      have hmod : a % 10 ^ (kk + 1) < 10 ^ (kk + 1) := Nat.mod_lt _ (by positivity)
      by_cases hneg : n < 0
      · rw [if_pos hneg]
        simp only [List.cons_append, List.append_assoc, List.singleton_append,
          List.nil_append, parseJsonNum]
        rw [if_pos trivial, parseNonnegNum_frac (a / 10 ^ (kk + 1)) (kk + 1)
          (a % 10 ^ (kk + 1)) hK hmod rest (numTailOk_headNonDigit rest hrest)]
        dsimp only
        rw [cast_div_add_mod a (kk + 1), ha, intCast_natAbs_of_neg n hneg, hq]
        rw [neg_div, neg_neg]
      · rw [if_neg hneg]
        simp only [List.nil_append, List.append_assoc, List.cons_append]
        rw [parseJsonNum_of_natChars, parseNonnegNum_frac (a / 10 ^ (kk + 1)) (kk + 1)
          (a % 10 ^ (kk + 1)) hK hmod rest (numTailOk_headNonDigit rest hrest)]
        rw [cast_div_add_mod a (kk + 1), ha, intCast_natAbs_of_nonneg n (not_lt.mp hneg), hq]

/-! ### JSON objects: the stored classification columns.
Key order matches the object literals in the source. -/

/-- `JSON.stringify` of the `percentage` number (NaN/±Infinity become null). -/
def renderJsonJNum : JNum → List Char
  | JNum.fin q => ratChars q
  | _ => ("null").data

def renderMillingGrade (mg : MillingGrade) : List Char :=
  ("\x7b\x22grade\x22:").data ++ (renderJsonString mg.grade
    ++ ((",\x22code\x22:").data ++ (renderJsonString mg.code
    ++ ((",\x22color\x22:").data ++ (renderJsonString mg.color ++ ("\x7d").data)))))

def stringifyMillingGrade (mg : MillingGrade) : String := String.mk (renderMillingGrade mg)

def renderGrainShape (gs : GrainShapeInfo) : List Char :=
  ("\x7b\x22shape\x22:").data ++ (renderJsonString gs.shape
    ++ ((",\x22description\x22:").data ++ (renderJsonString gs.description ++ ("\x7d").data)))

def stringifyGrainShape (gs : GrainShapeInfo) : String := String.mk (renderGrainShape gs)

def renderChalkiness (ch : ChalkinessInfo) : List Char :=
  ("\x7b\x22status\x22:").data ++ (renderJsonString ch.status
    ++ ((",\x22color\x22:").data ++ (renderJsonString ch.color ++ ("\x7d").data)))

def stringifyChalkiness (ch : ChalkinessInfo) : String := String.mk (renderChalkiness ch)

def renderWarning (w : DefectWarning) : List Char :=
  ("\x7b\x22type\x22:").data ++ (renderJsonString w.type
    ++ ((",\x22message\x22:").data ++ (renderJsonString w.message
    ++ ((",\x22severity\x22:").data ++ (renderJsonString w.severity
    ++ ((",\x22percentage\x22:").data ++ (renderJsonJNum w.percentage ++ ("\x7d").data)))))))

def renderWarningsItems : List DefectWarning → List Char
  | [] => []
  | [w] => renderWarning w
  | w :: ws => renderWarning w ++ (',' :: renderWarningsItems ws)

def renderWarnings (ws : List DefectWarning) : List Char :=
  match ws with
  | [] => ("[]").data
  | _ => '[' :: (renderWarningsItems ws ++ [']'])

def stringifyWarnings (ws : List DefectWarning) : String := String.mk (renderWarnings ws)

/-- Expect a literal character sequence. -/
def expectLit : List Char → List Char → Option (List Char)
  | [], cs => some cs
  | _ :: _, [] => none
  | l :: ls, c :: cs => if c = l then expectLit ls cs else none

theorem expectLit_append (lit rest : List Char) : expectLit lit (lit ++ rest) = some rest := by
  induction lit with
  | nil => rfl
  | cons l ls ih => simp [expectLit, ih]

theorem expectLit_self (lit : List Char) : expectLit lit lit = some [] := by
  have h := expectLit_append lit []
  simpa using h

def parseMillingGradeChars (cs0 : List Char) : Option MillingGrade :=
  match expectLit ("\x7b\x22grade\x22:").data cs0 with
  | none => none
  | some cs1 =>
  match parseJsonString cs1 with
  | none => none
  | some (g, cs2) =>
  match expectLit (",\x22code\x22:").data cs2 with
  | none => none
  | some cs3 =>
  match parseJsonString cs3 with
  | none => none
  | some (cd, cs4) =>
  match expectLit (",\x22color\x22:").data cs4 with
  | none => none
  | some cs5 =>
  match parseJsonString cs5 with
  | none => none
  | some (col, cs6) =>
  match expectLit ("\x7d").data cs6 with
  | none => none
  | some [] => some { grade := g, code := cd, color := col }
  | some (_ :: _) => none

def parseMillingGrade (s : String) : Option MillingGrade := parseMillingGradeChars s.data

theorem parseMillingGrade_round (mg : MillingGrade) (hg : plainStr mg.grade = true)
    (hc : plainStr mg.code = true) (hcol : plainStr mg.color = true) :
    parseMillingGrade (stringifyMillingGrade mg) = some mg := by
  obtain ⟨g, cd, col⟩ := mg
  unfold parseMillingGrade stringifyMillingGrade renderMillingGrade parseMillingGradeChars
  dsimp only at hg hc hcol ⊢
  simp only [expectLit_append, parseJsonString_render g hg, parseJsonString_render cd hc,
    parseJsonString_render col hcol, List.append_assoc, List.append_nil]
  simp only [expectLit_self]

def parseGrainShapeChars (cs0 : List Char) : Option GrainShapeInfo :=
  match expectLit ("\x7b\x22shape\x22:").data cs0 with
  | none => none
  | some cs1 =>
  match parseJsonString cs1 with
  | none => none
  | some (sh, cs2) =>
  match expectLit (",\x22description\x22:").data cs2 with
  | none => none
  | some cs3 =>
  match parseJsonString cs3 with
  | none => none
  | some (de, cs4) =>
  match expectLit ("\x7d").data cs4 with
  | none => none
  | some [] => some { shape := sh, description := de }
  | some (_ :: _) => none

def parseGrainShape (s : String) : Option GrainShapeInfo := parseGrainShapeChars s.data

theorem parseGrainShape_round (gs : GrainShapeInfo) (hs : plainStr gs.shape = true)
    (hd : plainStr gs.description = true) :
    parseGrainShape (stringifyGrainShape gs) = some gs := by
  obtain ⟨sh, de⟩ := gs
  unfold parseGrainShape stringifyGrainShape renderGrainShape parseGrainShapeChars
  dsimp only at hs hd ⊢
  simp only [expectLit_append, parseJsonString_render sh hs, parseJsonString_render de hd,
    List.append_assoc, List.append_nil]
  simp only [expectLit_self]

def parseChalkinessChars (cs0 : List Char) : Option ChalkinessInfo :=
  match expectLit ("\x7b\x22status\x22:").data cs0 with
  | none => none
  | some cs1 =>
  match parseJsonString cs1 with
  | none => none
  | some (st, cs2) =>
  match expectLit (",\x22color\x22:").data cs2 with
  | none => none
  | some cs3 =>
  match parseJsonString cs3 with
  | none => none
  | some (co, cs4) =>
  match expectLit ("\x7d").data cs4 with
  | none => none
  | some [] => some { status := st, color := co }
  | some (_ :: _) => none

def parseChalkiness (s : String) : Option ChalkinessInfo := parseChalkinessChars s.data

theorem parseChalkiness_round (ch : ChalkinessInfo) (hs : plainStr ch.status = true)
    (hc : plainStr ch.color = true) :
    parseChalkiness (stringifyChalkiness ch) = some ch := by
  obtain ⟨st, co⟩ := ch
  unfold parseChalkiness stringifyChalkiness renderChalkiness parseChalkinessChars
  dsimp only at hs hc ⊢
  simp only [expectLit_append, parseJsonString_render st hs, parseJsonString_render co hc,
    List.append_assoc, List.append_nil]
  simp only [expectLit_self]

def parseWarningChars (cs0 : List Char) : Option (DefectWarning × List Char) :=
  match expectLit ("\x7b\x22type\x22:").data cs0 with
  | none => none
  | some cs1 =>
  match parseJsonString cs1 with
  | none => none
  | some (ty, cs2) =>
  match expectLit (",\x22message\x22:").data cs2 with
  | none => none
  | some cs3 =>
  match parseJsonString cs3 with
  | none => none
  | some (msg, cs4) =>
  match expectLit (",\x22severity\x22:").data cs4 with
  | none => none
  | some cs5 =>
  match parseJsonString cs5 with
  | none => none
  | some (sev, cs6) =>
  match expectLit (",\x22percentage\x22:").data cs6 with
  | none => none
  | some cs7 =>
  match parseJsonNum cs7 with
  | none => none
  | some (p, cs8) =>
  match expectLit ("\x7d").data cs8 with
  | none => none
  | some cs9 =>
      some ({ type := ty, message := msg, severity := sev, percentage := JNum.fin p }, cs9)

/-- A warning the JSON column represents faithfully: plain strings and a
finite percentage with a terminating decimal expansion (always true of IEEE
doubles). -/
def wfWarning (w : DefectWarning) : Bool :=
  plainStr w.type && plainStr w.message && plainStr w.severity &&
    (match w.percentage with
     | JNum.fin q => (ratScale q).isSome
     | _ => false)

theorem rbrace_numTailOk (rest : List Char) :
    numTailOk (("\x7d").data ++ rest) = true := by
  show numTailOk (Char.ofNat 125 :: rest) = true
  rfl

theorem parseWarning_round (w : DefectWarning) (hw : wfWarning w = true) (rest : List Char) :
    parseWarningChars (renderWarning w ++ rest) = some (w, rest) := by
  obtain ⟨ty, msg, sev, p⟩ := w
  simp only [wfWarning, Bool.and_eq_true] at hw
  obtain ⟨⟨⟨hty, hmsg⟩, hsev⟩, hp⟩ := hw
  match p, hp with
  | JNum.fin q, hp =>
    obtain ⟨k, hk⟩ := Option.isSome_iff_exists.mp hp
    unfold parseWarningChars renderWarning renderJsonJNum
    dsimp only
    simp only [List.append_assoc, expectLit_append, parseJsonString_render ty hty,
      parseJsonString_render msg hmsg, parseJsonString_render sev hsev,
      parseJsonNum_ratChars q k hk _ (rbrace_numTailOk rest), expectLit_append]

def parseWarningsAux : ℕ → List Char → Option (List DefectWarning × List Char)
  | 0, _ => none
  | fuel + 1, cs =>
      match parseWarningChars cs with
      | none => none
      | some (w, cs1) =>
          match cs1 with
          | [] => none
          | c :: cs2 =>
              if c = ',' then
                match parseWarningsAux fuel cs2 with
                | none => none
                | some (ws, rest) => some (w :: ws, rest)
              else if c = ']' then some ([w], cs2)
              else none

def parseWarningsChars (cs : List Char) : Option (List DefectWarning × List Char) :=
  match cs with
  | [] => none
  | c :: cs1 =>
      if c = '[' then
        match cs1 with
        | [] => none
        | c2 :: cs2 => if c2 = ']' then some ([], cs2) else parseWarningsAux cs1.length cs1
      else none

/-- `JSON.parse` of the warnings column (must consume the whole string). -/
def parseWarnings (s : String) : Option (List DefectWarning) :=
  match parseWarningsChars s.data with
  | some (ws, []) => some ws
  | _ => none

theorem renderWarning_head (w : DefectWarning) :
    ∃ tl, renderWarning w = Char.ofNat 123 :: tl := by
  refine ⟨("\x22type\x22:").data ++ (renderJsonString w.type
    ++ ((",\x22message\x22:").data ++ (renderJsonString w.message
    ++ ((",\x22severity\x22:").data ++ (renderJsonString w.severity
    ++ ((",\x22percentage\x22:").data ++ (renderJsonJNum w.percentage ++ ("\x7d").data))))))), ?_⟩
  rfl

theorem parseWarningsAux_round :
    ∀ (ws : List DefectWarning), ws ≠ [] → (∀ w ∈ ws, wfWarning w = true) →
      ∀ fuel, ws.length ≤ fuel → ∀ rest,
        parseWarningsAux fuel (renderWarningsItems ws ++ (']' :: rest)) = some (ws, rest) := by
  intro ws
  induction ws with
  | nil => intro h; exact absurd rfl h
  | cons w tl ih =>
      intro _ hwf fuel hfuel rest
      match fuel, hfuel with
      | f + 1, hfuel =>
        cases tl with
        | nil =>
            show parseWarningsAux (f + 1) (renderWarning w ++ (']' :: rest)) = some ([w], rest)
            simp only [parseWarningsAux,
              parseWarning_round w (hwf w (by simp)) (']' :: rest)]
            rw [if_neg (by decide), if_pos trivial]
        | cons w2 tl2 =>
            show parseWarningsAux (f + 1)
              ((renderWarning w ++ (',' :: renderWarningsItems (w2 :: tl2))) ++ (']' :: rest))
              = some (w :: w2 :: tl2, rest)
            rw [List.append_assoc, List.cons_append]
            simp only [parseWarningsAux,
              parseWarning_round w (hwf w (by simp)) _]
            have hrec := ih (by simp) (fun x hx => hwf x (by simp [hx])) f
              (by simp only [List.length_cons] at hfuel ⊢; omega) rest
            simp only [hrec]
            rw [if_pos trivial]

theorem renderWarningsItems_len (ws : List DefectWarning) :
    ws.length ≤ (renderWarningsItems ws).length := by
  induction ws with
  | nil => simp [renderWarningsItems]
  | cons w tl ih =>
      obtain ⟨wtl, hwhead⟩ := renderWarning_head w
      cases tl with
      | nil =>
          show 1 ≤ (renderWarning w).length
          rw [hwhead]
          simp
      | cons w2 tl2 =>
          show (w :: w2 :: tl2).length ≤ (renderWarning w ++ (',' :: renderWarningsItems (w2 :: tl2))).length
          rw [hwhead]
          simp only [List.length_cons, List.cons_append, List.length_append]
          have := ih
          simp only [List.length_cons] at this ⊢
          omega

theorem parseWarnings_round (ws : List DefectWarning) (hwf : ∀ w ∈ ws, wfWarning w = true) :
    parseWarnings (stringifyWarnings ws) = some ws := by
  cases ws with
  | nil => rfl
  | cons w tl =>
      obtain ⟨wtl, hwhead⟩ := renderWarning_head w
      have hitems : ∃ itl, renderWarningsItems (w :: tl) = Char.ofNat 123 :: itl := by
        cases tl with
        | nil => exact ⟨wtl, by show renderWarning w = _; rw [hwhead]⟩
        | cons w2 tl2 =>
            refine ⟨wtl ++ (',' :: renderWarningsItems (w2 :: tl2)), ?_⟩
            show renderWarning w ++ (',' :: renderWarningsItems (w2 :: tl2)) = _
            rw [hwhead]
            rfl
      obtain ⟨itl, hitl⟩ := hitems
      have hmain : parseWarningsChars ('[' :: (renderWarningsItems (w :: tl) ++ [']']))
          = some (w :: tl, []) := by
        unfold parseWarningsChars
        dsimp only
        rw [if_pos rfl]
        rw [show renderWarningsItems (w :: tl) ++ [']']
            = Char.ofNat 123 :: (itl ++ [']']) by rw [hitl]; rfl]
        dsimp only
        rw [if_neg (by decide)]
        rw [← show renderWarningsItems (w :: tl) ++ [']']
            = Char.ofNat 123 :: (itl ++ [']']) by rw [hitl]; rfl]
        have hfuel : (w :: tl).length ≤ (renderWarningsItems (w :: tl) ++ [']']).length := by
          have h1 := renderWarningsItems_len (w :: tl)
          simp only [List.length_append, List.length_cons] at h1 ⊢
          omega
        exact parseWarningsAux_round (w :: tl) (by simp) hwf _ hfuel []
      unfold parseWarnings stringifyWarnings renderWarnings
      dsimp only
      rw [hmain]

/-- The INSERT value bindings of `createScan`: ScanResult → stored row. -/
def scanToRowDB (scan : ScanResult) : ScanRow :=
  { id := scan.id, user_id := scan.userId, rice_type := scan.riceType
  , image_uri := scan.imageUri
  , captured_at := toISOString scan.capturedAt
  , latitude := scan.latitude, longitude := scan.longitude
  , count := scan.rawOutput.count, broken_count := scan.rawOutput.broken_count
  , long_count := scan.rawOutput.long_count, medium_count := scan.rawOutput.medium_count
  , black_count := scan.rawOutput.black_count, chalky_count := scan.rawOutput.chalky_count
  , red_count := scan.rawOutput.red_count, yellow_count := scan.rawOutput.yellow_count
  , green_count := scan.rawOutput.green_count
  , wk_length_avg := scan.rawOutput.wk_length_avg
  , wk_width_avg := scan.rawOutput.wk_width_avg
  , wk_lw_ratio_avg := scan.rawOutput.wk_lw_ratio_avg
  , average_l := scan.rawOutput.average_l, average_a := scan.rawOutput.average_a
  , average_b := scan.rawOutput.average_b
  , milling_grade := stringifyMillingGrade scan.classifications.millingGrade
  , grain_shape := stringifyGrainShape scan.classifications.grainShape
  , length_class := scan.classifications.lengthClass
  , chalkiness_status := stringifyChalkiness scan.classifications.chalkinessStatus
  , warnings_json := stringifyWarnings scan.classifications.warnings
  , inference_time_ms := scan.inferenceTimeMs
  , synced_at := scan.syncedAt.map toISOString }

/-- `rowToScanResult` from scan-repository.ts: JSON.parse the classification
columns, `new Date` the timestamps, rebuild the record (a parse failure
models a thrown JSON.parse / an Invalid Date). -/
def rowToScanResult (row : ScanRow) : Option ScanResult :=
  match parseMillingGrade row.milling_grade with
  | none => none
  | some mg =>
  match parseGrainShape row.grain_shape with
  | none => none
  | some gs =>
  match parseChalkiness row.chalkiness_status with
  | none => none
  | some ch =>
  match parseWarnings row.warnings_json with
  | none => none
  | some ws =>
  match parseISO row.captured_at with
  | none => none
  | some cap =>
  match (match row.synced_at with
         | none => some none
         | some s =>
             match parseISO s with
             | none => none
             | some d => some (some d)) with
  | none => none
  | some syncedAt =>
      some
        { id := row.id, userId := row.user_id, imageUri := row.image_uri
        , riceType := row.rice_type, capturedAt := cap
        , latitude := row.latitude, longitude := row.longitude
        , rawOutput :=
          { count := row.count, broken_count := row.broken_count
          , long_count := row.long_count, medium_count := row.medium_count
          , black_count := row.black_count, chalky_count := row.chalky_count
          , red_count := row.red_count, yellow_count := row.yellow_count
          , green_count := row.green_count, wk_length_avg := row.wk_length_avg
          , wk_width_avg := row.wk_width_avg, wk_lw_ratio_avg := row.wk_lw_ratio_avg
          , average_l := row.average_l, average_a := row.average_a
          , average_b := row.average_b }
        , classifications :=
          { millingGrade := mg, grainShape := gs, lengthClass := row.length_class
          , chalkinessStatus := ch, warnings := ws }
        , inferenceTimeMs := row.inference_time_ms
        , syncedAt := syncedAt }

/-- A scan the TEXT columns represent faithfully: well-formed calendar
fields and plain (escape-free) classification strings with representable
warning percentages — true of everything the pipeline produces. -/
def wfScan (scan : ScanResult) : Bool :=
  decide (wfDate scan.capturedAt)
  && (match scan.syncedAt with
      | none => true
      | some d => decide (wfDate d))
  && plainStr scan.classifications.millingGrade.grade
  && plainStr scan.classifications.millingGrade.code
  && plainStr scan.classifications.millingGrade.color
  && plainStr scan.classifications.grainShape.shape
  && plainStr scan.classifications.grainShape.description
  && plainStr scan.classifications.chalkinessStatus.status
  && plainStr scan.classifications.chalkinessStatus.color
  && scan.classifications.warnings.all wfWarning

/-- C10: reading a freshly written row recovers the original ScanResult in
every field — the row mapping is the structural inverse of the
persistence-write mapping, including the JSON-serialized milling grade,
grain shape, chalkiness and warnings columns and the ISO-8601 timestamps. -/
theorem C10_persistence_round_trip :
    ∀ scan : ScanResult, wfScan scan = true →
      rowToScanResult (scanToRowDB scan) = some scan := by
  intro scan h
  simp only [wfScan, Bool.and_eq_true, decide_eq_true_eq] at h
  obtain ⟨⟨⟨⟨⟨⟨⟨⟨⟨hdate, hsync⟩, hg⟩, hcode⟩, hcolor⟩, hshape⟩, hdesc⟩, hstat⟩, hschol⟩, hws⟩ := h
  have hwf : ∀ w ∈ scan.classifications.warnings, wfWarning w = true :=
    fun w hw => List.all_eq_true.mp hws w hw
  unfold rowToScanResult scanToRowDB
  dsimp only
  simp only [parseMillingGrade_round _ hg hcode hcolor, parseGrainShape_round _ hshape hdesc,
    parseChalkiness_round _ hstat hschol, parseWarnings_round _ hwf,
    parseISO_toISOString _ hdate]
  cases hs : scan.syncedAt with
  | none =>
      simp only [Option.map_none']
      rw [← hs]
  | some d =>
      have hd : wfDate d := by
        rw [hs] at hsync
        simpa using hsync
      simp only [Option.map_some', parseISO_toISOString d hd]
      rw [← hs]

/-- A concrete well-formed scan (explicit classification literals, synced). -/
def scanLit : ScanResult :=
  { id := "scan-lit", userId := "user-9", imageUri := "file:///tmp/lit.jpg"
  , riceType := "Brown"
  , capturedAt := { year := 2025, month := 6, day := 15, hour := 10, minute := 20
                  , second := 30, ms := 400 }
  , latitude := some (9 / 2), longitude := none
  , rawOutput := mkRawQ 120 6 80 30 1 2 0 0 0 6 2 3 70 1 18
  , classifications :=
    { millingGrade := { grade := "Premium", code := "P", color := "#1B5E20" }
    , grainShape := { shape := "Slender", description := "Long, thin grains" }
    , lengthClass := "Mixed"
    , chalkinessStatus := { status := "Not Chalky", color := "#2E7D32" }
    , warnings := [] }
  , inferenceTimeMs := 901
  , syncedAt := some { year := 2025, month := 6, day := 15, hour := 11, minute := 0
                     , second := 0, ms := 0 } }

/-- Witness for C10 at the concrete scan. -/
theorem C10_persistence_round_trip_witness :
    wfScan scanLit = true ∧ rowToScanResult (scanToRowDB scanLit) = some scanLit :=
  ⟨by decide, C10_persistence_round_trip scanLit (by decide)⟩
